import Mathlib

/-!
# auto-UItest-platform: a shallow embedding of the backend core

JavaScript strings are embedded as lists of characters (`Str`).  The regular
expressions of `fileManager.js` and `aiService.js` are embedded as item lists
run by a small backtracking matcher that follows the ECMAScript matching order
(leftmost start, greedy and lazy quantifiers tried in the order the language
prescribes).
-/

namespace AutoUITest

deriving instance DecidableEq for Except

/-- A JavaScript string, as the list of its characters. -/
abbrev Str := List Char

/-! ## Regular expressions -/

/-- One element of a regular expression: a literal character, a character
class, a starred character class (greedy or lazy) or a capture-group border. -/
inductive Item where
  | lit (c : Char)
  | cls (p : Char → Bool)
  | star (greedy : Bool) (p : Char → Bool)
  | mark

/-- The first alternative when it succeeds, otherwise the second. -/
def firstOf {α : Type} (a b : Option α) : Option α :=
  match a with
  | some x => some x
  | none => b

/-- Matching `p*` (greedy) or `p*?` (lazy) followed by the continuation `k`.
The greedy star first tries to take one more character; the lazy star first
tries the continuation. -/
def starLoop {α : Type} (greedy : Bool) (p : Char → Bool) (k : Str → Option α) :
    Str → Option α
  | [] => k []
  | c :: cs =>
    if greedy then
      firstOf (if p c then starLoop greedy p k cs else none) (k (c :: cs))
    else
      firstOf (k (c :: cs)) (if p c then starLoop greedy p k cs else none)

/-- Anchored match of an item list at the head of the input.  The result is
the list of inputs remaining at each capture-group border (in order) and the
input remaining after the match. -/
def matchItems : List Item → Str → Option (List Str × Str)
  | [], s => some ([], s)
  | Item.lit c :: is, s =>
    match s with
    | [] => none
    | x :: xs => if x = c then matchItems is xs else none
  | Item.cls p :: is, s =>
    match s with
    | [] => none
    | x :: xs => if p x then matchItems is xs else none
  | Item.star g p :: is, s => starLoop g p (matchItems is) s
  | Item.mark :: is, s =>
    match matchItems is s with
    | none => none
    | some (ms, r) => some (s :: ms, r)

/-- The text consumed between the input `s` and its suffix `r`. -/
def consumed (s r : Str) : Str := s.take (s.length - r.length)

/-- One regular-expression match: the text before it, the matched text
(`match[0]`), the first capture group (`match[1]`, empty when the expression
has no group) and the text after it. -/
structure Match where
  before : Str
  whole : Str
  group1 : Str
  after : Str
deriving DecidableEq, Repr

/-- The capture made by the first pair of group borders. -/
def firstGroup : List Str → Str
  | a :: b :: _ => consumed a b
  | _ => []

/-- Leftmost match of the expression in `s` (`String.prototype.match` and
`RegExp.prototype.exec` from index 0): every start position is tried in order.
`skipped` is the text already passed over, reversed. -/
def searchFrom (re : List Item) (skipped : Str) : Str → Option Match
  | [] =>
    match matchItems re [] with
    | some (ms, r) => some ⟨skipped.reverse, consumed [] r, firstGroup ms, r⟩
    | none => none
  | c :: cs =>
    match matchItems re (c :: cs) with
    | some (ms, r) => some ⟨skipped.reverse, consumed (c :: cs) r, firstGroup ms, r⟩
    | none => searchFrom re (c :: skipped) cs

/-- Leftmost match of the expression in `s`. -/
def search (re : List Item) (s : Str) : Option Match := searchFrom re [] s

/-- All matches of a global (`/g`) expression, left to right, each search
resuming where the previous match ended.  The first argument counts the
characters of the current match still to be passed; the second is the
unmatched text collected since the previous match, reversed.  Each result pairs the unmatched text
before a match with the match.  The expressions of this program never match
the empty string, so a match always advances. -/
def scanAll (re : List Item) : Nat → Str → Str → List (Str × Str × Str)
  | _, _, [] => []
  | n + 1, lit, _ :: cs => scanAll re n lit cs
  | 0, lit, c :: cs =>
    match matchItems re (c :: cs) with
    | some (ms, r) =>
      (lit.reverse, consumed (c :: cs) r, firstGroup ms) ::
        scanAll re ((c :: cs).length - r.length - 1) [] cs
    | none => scanAll re 0 (c :: lit) cs

/-- The text left over after the last match of a global expression. -/
def scanRest (re : List Item) : Nat → Str → Str → Str
  | _, lit, [] => lit.reverse
  | n + 1, lit, _ :: cs => scanRest re n lit cs
  | 0, lit, c :: cs =>
    match matchItems re (c :: cs) with
    | some (_, r) => scanRest re ((c :: cs).length - r.length - 1) [] cs
    | none => scanRest re 0 (c :: lit) cs

/-- `s.replace(re, '')` for a global expression: every match is removed. -/
def removeAll (re : List Item) (s : Str) : Str :=
  ((scanAll re 0 [] s).map (fun m => m.1)).flatten ++ scanRest re 0 [] s

/-- The literal items of a fixed text. -/
def lits (s : String) : List Item := s.toList.map Item.lit

/-- The class `[\s\S]`: every character. -/
def anyChar : Char → Bool := fun _ => true

/-- The class `[^']`. -/
def notQuote : Char → Bool := fun c => c != Char.ofNat 39

/-- The class `\s` of ECMAScript: white space and line terminators. -/
def isJsSpace (c : Char) : Bool :=
  let n := c.toNat
  n == 9 || n == 10 || n == 11 || n == 12 || n == 13 || n == 32 || n == 160 ||
  n == 5760 || (8192 ≤ n && n ≤ 8202) || n == 8232 || n == 8233 || n == 8239 ||
  n == 8287 || n == 12288 || n == 65279

/-- Expansion of a replacement string (`GetSubstitution`) for an expression
without capture groups: `$$`, `$&`, the text before the match and the text
after it are the only patterns; every other character stands for itself. -/
def expandReplacement (before whole after : Str) : Str → Str
  | [] => []
  | [c] => [c]
  | c :: d :: rest =>
    if c = '$' then
      if d = '$' then '$' :: expandReplacement before whole after rest
      else if d = '&' then whole ++ expandReplacement before whole after rest
      else if d = Char.ofNat 96 then before ++ expandReplacement before whole after rest
      else if d = Char.ofNat 39 then after ++ expandReplacement before whole after rest
      else c :: expandReplacement before whole after (d :: rest)
    else c :: expandReplacement before whole after (d :: rest)

/-- `s.replace(re, replacement)` for a non-global expression without capture
groups and a replacement string: only the first match is replaced. -/
def replaceFirst (re : List Item) (replacement : Str) (s : Str) : Str :=
  match search re s with
  | none => s
  | some m => m.before ++ expandReplacement m.before m.whole m.after replacement ++ m.after

/-! ## fileManager.js -/

/-- The expression `/test\('([^']+)',[\s\S]*?\}\);/g` of `extractTests` and
`assembleScript`. -/
def testRegex : List Item :=
  lits "test('" ++ [Item.mark, Item.cls notQuote, Item.star true notQuote, Item.mark] ++
  lits "'," ++ [Item.star false anyChar] ++ lits "\x7d);"

/-- The expression `/test\.describe[\s\S]*?\{/` of `assembleScript`. -/
def describeRegex : List Item :=
  lits "test.describe" ++ [Item.star false anyChar] ++ lits "\x7b"

/-- A test record extracted from a script: `{id: match[1], code: match[0]}`. -/
structure TestRecord where
  id : Str
  code : Str
deriving DecidableEq, Repr

/-- `FileManager.extractTests`: one record per match of `testRegex`. -/
def extractTests (script : Str) : List TestRecord :=
  (scanAll testRegex 0 [] script).map (fun m => ⟨m.2.2, m.2.1⟩)

/-- The filter of `FileManager.deduplicateTests` with the set `seen` made
explicit: a record is dropped when its id is in `seen`, otherwise kept and its
id added. -/
def dedupFrom (seen : List Str) : List TestRecord → List TestRecord
  | [] => []
  | t :: ts =>
    if t.id ∈ seen then dedupFrom seen ts
    else t :: dedupFrom (t.id :: seen) ts

/-- `FileManager.deduplicateTests`. -/
def deduplicateTests (tests : List TestRecord) : List TestRecord := dedupFrom [] tests

/-- `Array.prototype.join` on strings. -/
def joinWith (sep : Str) : List Str → Str
  | [] => []
  | [a] => a
  | a :: b :: rest => a ++ sep ++ joinWith sep (b :: rest)

/-- `FileManager.assembleScript`: the test declarations of the base script are
removed and the given ones inserted in place of the first `test.describe`
header. -/
def assembleScript (baseScript : Str) (tests : List TestRecord) : Str :=
  let result := removeAll testRegex baseScript
  let testsCode := joinWith "\n\n  ".toList (tests.map (fun t => t.code))
  replaceFirst describeRegex
    ("test.describe('合并的测试', () => \x7b\n\n  ".toList ++ testsCode ++ "\n\n".toList) result

/-- An entry of the target directory: a file with its text, or a directory. -/
inductive Entry where
  | file (content : Str)
  | dir
deriving DecidableEq, Repr

/-- The target directory of `saveScript`: its entries by name, in the order
`fs.readdir` lists them.  A path inside the directory is given by the entry
name. -/
abbrev Dir := List (Str × Entry)

/-- What is at the target path of `saveScript`: nothing, something that is
not a directory (a regular file), or a directory with its entries. -/
inductive Target where
  | absent
  | notDirectory
  | directory (d : Dir)
deriving DecidableEq, Repr

/-- The ways a file-system call of this model rejects: `ENOENT`, `EISDIR` and
`EEXIST`. -/
inductive FsError where
  | noEntry
  | isDirectory
  | alreadyExists
deriving DecidableEq, Repr

/-- `f.endsWith(suffix)`. -/
def endsWith (f suffix : Str) : Bool := f.drop (f.length - suffix.length) == suffix

/-- `FileManager.findSimilarScripts`: the names ending in `.spec.js`, or the
empty list when `fs.readdir` rejects because the path is absent or not a
directory. -/
def findSimilarScripts : Target → List Str
  | Target.directory d =>
    (d.map (fun e => e.1)).filter (fun f => endsWith f ".spec.js".toList)
  | _ => []

/-- The entries at the target path; none when it is not a directory. -/
def entriesOf : Target → Dir
  | Target.directory d => d
  | _ => []

/-- `fs.mkdir(targetPath, { recursive: true })`: an absent directory is
created, an existing one is left as it is, and a path that is not a directory
makes the call reject with `EEXIST`. -/
def mkdirRecursive : Target → Except FsError Dir
  | Target.absent => Except.ok []
  | Target.notDirectory => Except.error FsError.alreadyExists
  | Target.directory d => Except.ok d

/-- `fs.readFile(path, 'utf8')`. -/
def readFile : Dir → Str → Except FsError Str
  | [], _ => Except.error FsError.noEntry
  | (n, e) :: rest, name =>
    if n = name then
      match e with
      | Entry.file content => Except.ok content
      | Entry.dir => Except.error FsError.isDirectory
    else readFile rest name

/-- `fs.writeFile(path, text, 'utf8')` on a path where there is a regular file
or nothing: the text of the file is replaced, or the file is created.
`saveScript` writes no other path: it writes the file `mergeScripts` has just
read, or a new name ending in `.spec.js` in a directory where `readdir` listed
no such name. -/
def writeFile : Dir → Str → Str → Dir
  | [], name, text => [(name, Entry.file text)]
  | (n, e) :: rest, name, text =>
    if n = name then (n, Entry.file text) :: rest
    else (n, e) :: writeFile rest name text

/-- `FileManager.mergeScripts`. -/
def mergeScripts (d : Dir) (existingPath newScript : Str) : Except FsError Str :=
  match readFile d existingPath with
  | Except.error e => Except.error e
  | Except.ok existing =>
    let existingTests := extractTests existing
    let newTests := extractTests newScript
    let allTests := existingTests ++ newTests
    let uniqueTests := deduplicateTests allTests
    Except.ok (assembleScript existing uniqueTests)

/-- `FileManager.saveScript`: the path written and the directory afterwards.
When `fs.readFile` inside `mergeScripts` or `fs.mkdir` rejects, `saveScript`
rejects with that error and nothing has been written. -/
def saveScript (target : Target) (newScript timestamp : Str) : Except FsError (Str × Dir) :=
  let fileName := "test_".toList ++ timestamp ++ ".spec.js".toList
  match findSimilarScripts target with
  | existing0 :: _ =>
    match mergeScripts (entriesOf target) existing0 newScript with
    | Except.error e => Except.error e
    | Except.ok merged => Except.ok (existing0, writeFile (entriesOf target) existing0 merged)
  | [] =>
    match mkdirRecursive target with
    | Except.error e => Except.error e
    | Except.ok d => Except.ok (fileName, writeFile d fileName newScript)

/-- The property of the specification that a script text is a syntactically
complete unit: its braces and parentheses are balanced and well nested.
The first argument is the stack of brackets still open. -/
def balancedFrom : List Char → Str → Bool
  | stack, [] => stack.isEmpty
  | stack, c :: cs =>
    if c = '(' ∨ c = '\x7b' then balancedFrom (c :: stack) cs
    else if c = ')' then
      match stack with
      | o :: rest => o = '(' && balancedFrom rest cs
      | [] => false
    else if c = '\x7d' then
      match stack with
      | o :: rest => o = '\x7b' && balancedFrom rest cs
      | [] => false
    else balancedFrom stack cs

/-- Braces and parentheses of a text are balanced and well nested. -/
def balanced (s : Str) : Bool := balancedFrom [] s

/-- The specification of order-preserving deduplication: of the records with
one id only the first stays. -/
def firstOccurrences : List TestRecord → List TestRecord
  | [] => []
  | t :: ts => t :: (firstOccurrences ts).filter (fun u => u.id != t.id)

/-- The merged record list as the specification words it: the existing
records, then the new records whose id is not among the existing ones, first
occurrence only. -/
def specMerge (existing new : List TestRecord) : List TestRecord :=
  existing ++ firstOccurrences (new.filter (fun t => !((existing.map (fun e => e.id)).contains t.id)))

/-! ## scriptGenerator.js -/

/-- A step of a test case.  The fields other than `action` may be absent
(`undefined`), as each action carries its own. -/
structure Step where
  action : Str
  selector : Option Str := none
  value : Option Str := none
  url : Option Str := none
deriving DecidableEq, Repr

/-- A test case produced by the AI back end. -/
structure TestCase where
  id : Str
  name : Str
  steps : List Step
  expectedResult : Str
deriving DecidableEq, Repr

/-- The run configuration sent by the front end (`app.js`), fields in the
order the front end builds them; `password` may be absent. -/
structure Config where
  url : Str
  username : Str
  password : Option Str
  tabName : Str
  testData : Str
deriving DecidableEq, Repr

/-- A value interpolated in a template literal: an absent field reads
`undefined`. -/
def interp : Option Str → Str
  | some s => s
  | none => "undefined".toList

/-- A lower-case hexadecimal digit. -/
def hexDigit (n : Nat) : Char :=
  if n < 10 then Char.ofNat (48 + n) else Char.ofNat (87 + n)

/-- One character inside a JSON string as `JSON.stringify` writes it. -/
def jsonQuoteChar (c : Char) : Str :=
  if c = '"' then "\\\"".toList
  else if c = '\\' then "\\\\".toList
  else if c.toNat = 8 then "\\b".toList
  else if c.toNat = 12 then "\\f".toList
  else if c.toNat = 10 then "\\n".toList
  else if c.toNat = 13 then "\\r".toList
  else if c.toNat = 9 then "\\t".toList
  else if c.toNat < 32 then
    "\\u00".toList ++ [hexDigit (c.toNat / 16), hexDigit (c.toNat % 16)]
  else [c]

/-- A string value as `JSON.stringify` writes it. -/
def jsonQuote (s : Str) : Str :=
  '"' :: (s.map jsonQuoteChar).flatten ++ ['"']

/-- The members of the configuration object that `JSON.stringify` writes: an
absent password is left out. -/
def configMembers (config : Config) : List (String × Str) :=
  [("url", config.url), ("username", config.username)] ++
  (match config.password with
   | some p => [("password", p)]
   | none => []) ++
  [("tabName", config.tabName), ("testData", config.testData)]

/-- `JSON.stringify(config, null, 2)`. -/
def stringifyConfig (config : Config) : Str :=
  "\x7b\n".toList ++
  joinWith ",\n".toList
    ((configMembers config).map
      (fun m => "  ".toList ++ jsonQuote m.1.toList ++ ": ".toList ++ jsonQuote m.2)) ++
  "\n\x7d".toList

/-- The callback of `generateSteps`: the instruction of one step, or nothing
(`undefined`) when no branch of the `if` chain applies. -/
def renderStep (step : Step) : Option Str :=
  if step.action = "click".toList then
    some ("await page.click('".toList ++ interp step.selector ++ "');".toList)
  else if step.action = "fill".toList then
    some ("await page.fill('".toList ++ interp step.selector ++ "', '".toList ++
      interp step.value ++ "');".toList)
  else if step.action = "navigate".toList then
    some ("await page.goto('".toList ++ interp step.url ++ "');".toList)
  else none

/-- An array element as `Array.prototype.join` writes it: `undefined` is the
empty string. -/
def joinElem : Option Str → Str
  | some s => s
  | none => []

/-- `ScriptGenerator.generateSteps`. -/
def generateSteps (steps : List Step) : Str :=
  joinWith "\n    ".toList ((steps.map renderStep).map joinElem)

/-- The test declaration that `generateTestCases` renders for one test case. -/
def renderTestCase (tc : TestCase) : Str :=
  "\n  test('".toList ++ tc.id ++ " - ".toList ++ tc.name ++
  "', async (\x7b page \x7d) => \x7b\n    ".toList ++ generateSteps tc.steps ++
  "\n\n    // 验证结果\n    await expect(page.locator('body')).toContainText('".toList ++
  tc.expectedResult ++
  "');\n\n    // 截图\n    await page.screenshot(\x7b\n      path: 'screenshots/".toList ++
  tc.id ++ ".png',\n      fullPage: true\n    \x7d);\n  \x7d);".toList

/-- `ScriptGenerator.generateTestCases`. -/
def generateTestCases (testCases : List TestCase) : Str :=
  joinWith "\n".toList (testCases.map renderTestCase)

/-- The password line of the login preamble: empty when the password is
absent or empty. -/
def passwordLine (config : Config) : Str :=
  match config.password with
  | none => []
  | some [] => []
  | some (c :: cs) =>
    "await page.fill('input[type=\"password\"]', '".toList ++ (c :: cs) ++ "');".toList

/-- The text of the template of `generate` before the test declarations:
header comment, import, `test.describe` header and login preamble. -/
def scriptHead (localeNow : Str) (config : Config) : Str :=
  "// 自动生成的测试脚本\n// 页面: ".toList ++ config.tabName ++
  "\n// 生成时间: ".toList ++ localeNow ++
  "\n// 配置: ".toList ++ stringifyConfig config ++
  "\n\nconst \x7b test, expect \x7d = require('@playwright/test');\n\ntest.describe('".toList ++
  config.tabName ++
  " 自动化测试', () => \x7b\n\n  test.beforeEach(async (\x7b page \x7d) => \x7b\n    // 登录\n    await page.goto('".toList ++
  config.url ++
  "');\n    await page.fill('input[type=\"text\"]', '".toList ++ config.username ++
  "');\n    ".toList ++ passwordLine config ++
  "\n    await page.click('button:has-text(\"登\")');\n    await page.waitForURL(/.*#\\/.*/);\n\n    // 进入目标页面\n    await page.click('a:has-text(\"".toList ++
  config.tabName ++
  "\")');\n    await page.waitForTimeout(1000);\n  \x7d);\n\n".toList

/-- The text of the template of `generate` after the test declarations: the
closing of the suite and the exported configuration. -/
def scriptTail (isoNow : Str) (config : Config) : Str :=
  "\n\n\x7d);\n\n// 测试配置\nmodule.exports = \x7b\n  testConfig: ".toList ++
  stringifyConfig config ++
  ",\n  generatedAt: '".toList ++ isoNow ++ "'\n\x7d;\n".toList

/-- `ScriptGenerator.generate`.  The two readings of the clock that reach the
text, `new Date().toLocaleString()` and `new Date().toISOString()`, are the
arguments `localeNow` and `isoNow`. -/
def generate (localeNow isoNow : Str) (config : Config) (testCases : List TestCase) : Str :=
  scriptHead localeNow config ++ generateTestCases testCases ++ scriptTail isoNow config

/-! ## testExecutor.js -/

/-- The calls `runTests` makes on the browser-automation library.  Arguments
read from a step may be absent (`undefined`). -/
inductive Call where
  | launch
  | newPage
  | goto (url : Option Str)
  | type (selector text : Str)
  | click (selector : Option Str)
  | fill (selector value : Option Str)
  | waitForNavigation
  | waitForTimeout (ms : Nat)
  | evaluate (expected : Str)
  | screenshot (path : Str)
  | close
deriving DecidableEq, Repr

/-- The behaviour of the browser: each call, in the current state `σ` of the
outside world, either rejects with an error (its message) or resolves.  The
Boolean is the value `page.evaluate` resolves to; it is not read after any
other call. -/
abbrev Browser (σ : Type) := Call → σ → Except Str Bool × σ

/-- The outside world together with the calls made so far, oldest first. -/
structure World (σ : Type) where
  state : σ
  trace : List Call

/-- One awaited call: it is recorded and the browser answers. -/
def perform {σ : Type} (b : Browser σ) (c : Call) (w : World σ) : Except Str Bool × World σ :=
  ((b c w.state).1, ⟨(b c w.state).2, w.trace ++ [c]⟩)

/-- An entry of `results.details`: the object `executeTestCase` returns
(`actualResult` set) or the one the `catch` block builds (`error` set). -/
structure Detail where
  testCaseId : Str
  passed : Bool
  actualResult : Option Str := none
  error : Option Str := none
deriving DecidableEq, Repr

/-- The object `runTests` returns; a screenshot entry is the pair of
`testCaseId` and `path`. -/
structure Results where
  total : Nat
  passed : Nat
  failed : Nat
  details : List Detail
  screenshots : List (Str × Str)
deriving DecidableEq, Repr

/-- The page call of one step, if its action is one of the three the `if`
chain of `executeTestCase` knows. -/
def stepCall (step : Step) : Option Call :=
  if step.action = "click".toList then some (Call.click step.selector)
  else if step.action = "fill".toList then some (Call.fill step.selector step.value)
  else if step.action = "navigate".toList then some (Call.goto step.url)
  else none

/-- The step loop of `executeTestCase`: the call of each step, then a settle
delay of 500 ms; the first rejection ends the loop with its message. -/
def executeSteps {σ : Type} (b : Browser σ) : List Step → World σ → Option Str × World σ
  | [], w => (none, w)
  | step :: rest, w =>
    let r1 : Option Str × World σ :=
      match stepCall step with
      | none => (none, w)
      | some c =>
        match perform b c w with
        | (Except.error e, w1) => (some e, w1)
        | (Except.ok _, w1) => (none, w1)
    match r1 with
    | (some e, w1) => (some e, w1)
    | (none, w1) =>
      match perform b (Call.waitForTimeout 500) w1 with
      | (Except.error e, w2) => (some e, w2)
      | (Except.ok _, w2) => executeSteps b rest w2

/-- `TestExecutor.executeTestCase`. -/
def executeTestCase {σ : Type} (b : Browser σ) (testCase : TestCase) (w : World σ) :
    Except Str Detail × World σ :=
  match executeSteps b testCase.steps w with
  | (some e, w1) => (Except.error e, w1)
  | (none, w1) =>
    match perform b (Call.evaluate testCase.expectedResult) w1 with
    | (Except.error e, w2) => (Except.error e, w2)
    | (Except.ok result, w2) =>
      (Except.ok
        { testCaseId := testCase.id
          passed := result
          actualResult := some (if result then testCase.expectedResult else "未匹配预期结果".toList) },
       w2)

/-- The path of the screenshot of a test case. -/
def screenshotPath (testCase : TestCase) : Str :=
  "outputs/screenshots/".toList ++ testCase.id ++ ".png".toList

/-- The `catch` block of the per-case `try` of `runTests`. -/
def recordFault (results : Results) (testCase : TestCase) (message : Str) : Results :=
  { results with
    failed := results.failed + 1
    details := results.details ++ [{ testCaseId := testCase.id, passed := false, error := some message }] }

/-- The body of the per-case `try` of `runTests` up to the screenshot: the
detail is pushed and counted. -/
def recordDetail (results : Results) (detail : Detail) : Results :=
  { results with
    details := results.details ++ [detail]
    passed := if detail.passed then results.passed + 1 else results.passed
    failed := if detail.passed then results.failed else results.failed + 1 }

/-- The end of the per-case `try` of `runTests`: the screenshot is pushed. -/
def recordScreenshot (results : Results) (testCase : TestCase) : Results :=
  { results with
    screenshots := results.screenshots ++ [(testCase.id, screenshotPath testCase)] }

/-- The `for` loop of `runTests` over the test cases. -/
def runCases {σ : Type} (b : Browser σ) : List TestCase → Results → World σ → Results × World σ
  | [], results, w => (results, w)
  | testCase :: rest, results, w =>
    match executeTestCase b testCase w with
    | (Except.error e, w1) => runCases b rest (recordFault results testCase e) w1
    | (Except.ok detail, w1) =>
      let counted := recordDetail results detail
      match perform b (Call.screenshot (screenshotPath testCase)) w1 with
      | (Except.error e, w2) => runCases b rest (recordFault counted testCase e) w2
      | (Except.ok _, w2) => runCases b rest (recordScreenshot counted testCase) w2

/-- Awaited calls in sequence: the first rejection ends the sequence. -/
def performAll {σ : Type} (b : Browser σ) : List Call → World σ → Option Str × World σ
  | [], w => (none, w)
  | c :: cs, w =>
    match perform b c w with
    | (Except.error e, w1) => (some e, w1)
    | (Except.ok _, w1) => performAll b cs w1

/-- The login calls at the head of the outer `try` of `runTests`; the password
is typed only when it is present and not empty. -/
def loginCalls (config : Config) : List Call :=
  [Call.goto (some config.url), Call.type "input[type=\"text\"]".toList config.username] ++
  (match config.password with
   | some (c :: cs) => [Call.type "input[type=\"password\"]".toList (c :: cs)]
   | _ => []) ++
  [Call.click (some "button:has-text(\"登\")".toList), Call.waitForNavigation]

/-- `TestExecutor.runTests`: the returned object, or the message of the error
it raises, and the world afterwards. -/
def runTests {σ : Type} (b : Browser σ) (config : Config) (testCases : List TestCase)
    (w : World σ) : Except Str Results × World σ :=
  match perform b Call.launch w with
  | (Except.error e, w1) => (Except.error e, w1)
  | (Except.ok _, w1) =>
    match perform b Call.newPage w1 with
    | (Except.error e, w2) => (Except.error e, w2)
    | (Except.ok _, w2) =>
      let results : Results :=
        { total := testCases.length, passed := 0, failed := 0, details := [], screenshots := [] }
      match performAll b (loginCalls config) w2 with
      | (some e, w3) =>
        match perform b Call.close w3 with
        | (Except.error e', w4) => (Except.error e', w4)
        | (Except.ok _, w4) => (Except.error e, w4)
      | (none, w3) =>
        match runCases b testCases results w3 with
        | (final, w4) =>
          match perform b Call.close w4 with
          | (Except.error e', w5) => (Except.error e', w5)
          | (Except.ok _, w5) => (Except.ok final, w5)

/-! ## aiService.js: response decoding -/

/-- The expression of `parseJSON` for a fence tagged json: three backticks,
`json\s*([\s\S]*?)\s*` and three backticks. -/
def fenceJsonRegex : List Item :=
  lits "```json" ++
  [Item.star true isJsSpace, Item.mark, Item.star false anyChar, Item.mark,
   Item.star true isJsSpace] ++
  lits "```"

/-- The expression of `parseJSON` for a plain fence: three backticks,
`\s*([\s\S]*?)\s*` and three backticks. -/
def fencePlainRegex : List Item :=
  lits "```" ++
  [Item.star true isJsSpace, Item.mark, Item.star false anyChar, Item.mark,
   Item.star true isJsSpace] ++
  lits "```"

/-- The part the two fence expressions share after the opening fence:
`\s*([\s\S]*?)\s*` and the closing fence. -/
def fenceTail : List Item :=
  [Item.star true isJsSpace, Item.mark, Item.star false anyChar, Item.mark,
   Item.star true isJsSpace] ++
  lits "```"

/-- The value of `jsonMatch[1]` in `parseJSON`: the group of the first of the
two fence expressions that matches, or the whole text. -/
def jsonMatchGroup (text : Str) : Str :=
  match search fenceJsonRegex text with
  | some m => m.group1
  | none =>
    match search fencePlainRegex text with
    | some m => m.group1
    | none => text

/-- The argument of `JSON.parse` in `parseJSON`, `jsonMatch[1] || text`: an
empty group is falsy and gives way to the whole text. -/
def decodedText (text : Str) : Str :=
  match jsonMatchGroup text with
  | [] => text
  | c :: cs => c :: cs

/-- What `parseJSON` returns: the decoded value, or the object
`{ error, raw }` built in its `catch` block. -/
inductive Decoded (V : Type) where
  | value (v : V)
  | failure (error raw : Str)
deriving DecidableEq, Repr

/-- `BaseAIService.parseJSON`.  The built-in `JSON.parse` is the argument
`JSONparse`: `none` stands for its `SyntaxError`. -/
def parseJSON {V : Type} (JSONparse : Str → Option V) (text : Str) : Decoded V :=
  match JSONparse (decodedText text) with
  | some v => Decoded.value v
  | none => Decoded.failure "JSON解析失败".toList text

/-- A JSON text as a tree.  String and number tokens are kept as written in
the text (a string without its quotes). -/
inductive Json where
  | null
  | bool (b : Bool)
  | num (token : Str)
  | str (token : Str)
  | arr (items : List Json)
  | obj (members : List (Str × Json))
deriving Repr

/-- JSON white space: space, tab, line feed, carriage return. -/
def isJsonSpace (c : Char) : Bool := c = ' ' || c = '\t' || c = '\n' || c = '\r'

/-- The text without its leading JSON white space. -/
def skipSpace : Str → Str
  | [] => []
  | c :: cs => if isJsonSpace c then skipSpace cs else c :: cs

/-- A hexadecimal digit. -/
def isHex (c : Char) : Bool :=
  c.isDigit || ('a'.toNat ≤ c.toNat && c.toNat ≤ 'f'.toNat) ||
  ('A'.toNat ≤ c.toNat && c.toNat ≤ 'F'.toNat)

/-- The characters of a JSON string after its opening quote: the token up to
the closing quote (reversed in `acc`) and the text after it. -/
def stringBody (acc : Str) : Str → Option (Str × Str)
  | [] => none
  | c :: cs =>
    if c = '"' then some (acc.reverse, cs)
    else if c = '\\' then
      match cs with
      | [] => none
      | e :: rest =>
        if e = 'u' then
          match rest with
          | h1 :: h2 :: h3 :: h4 :: rest4 =>
            if isHex h1 && isHex h2 && isHex h3 && isHex h4 then
              stringBody (h4 :: h3 :: h2 :: h1 :: e :: c :: acc) rest4
            else none
          | _ => none
        else if e = '"' || e = '\\' || e = '/' || e = 'b' || e = 'f' || e = 'n' ||
            e = 'r' || e = 't' then
          stringBody (e :: c :: acc) rest
        else none
    else if c.toNat < 32 then none
    else stringBody (c :: acc) cs

/-- The longest run of decimal digits at the head of the text, and the rest. -/
def digitRun : Str → Str × Str
  | [] => ([], [])
  | c :: cs =>
    if c.isDigit then ((c :: (digitRun cs).1), (digitRun cs).2) else ([], c :: cs)

/-- A JSON number at the head of the text: its token and the rest. -/
def numberToken (s : Str) : Option (Str × Str) :=
  let sign : Str × Str :=
    match s with
    | '-' :: r => (['-'], r)
    | _ => ([], s)
  let int := digitRun sign.2
  if int.1 = [] then none
  else if int.1.length > 1 && int.1.head? = some '0' then none
  else
    let frac : Option (Str × Str) :=
      match int.2 with
      | '.' :: r =>
        if (digitRun r).1 = [] then none else some ('.' :: (digitRun r).1, (digitRun r).2)
      | _ => some ([], int.2)
    match frac with
    | none => none
    | some (f, afterFrac) =>
      let exp : Option (Str × Str) :=
        match afterFrac with
        | e :: r =>
          if e = 'e' || e = 'E' then
            let sgn : Str × Str :=
              match r with
              | x :: r2 => if x = '+' || x = '-' then ([x], r2) else ([], r)
              | [] => ([], r)
            if (digitRun sgn.2).1 = [] then none
            else some (e :: sgn.1 ++ (digitRun sgn.2).1, (digitRun sgn.2).2)
          else some ([], afterFrac)
        | [] => some ([], afterFrac)
      match exp with
      | none => none
      | some (x, rest) => some (sign.1 ++ int.1 ++ f ++ x, rest)

/-- The elements of an array after the first value has been announced: values
separated by commas up to the closing bracket.  `pv` reads one value with the
white space around it. -/
def arrayItems (pv : Str → Option (Json × Str)) : Nat → Str → Option (List Json × Str)
  | 0, _ => none
  | n + 1, s =>
    match pv s with
    | none => none
    | some (v, r) =>
      match r with
      | c :: r2 =>
        if c = ',' then
          match arrayItems pv n r2 with
          | some (vs, r3) => some (v :: vs, r3)
          | none => none
        else if c = ']' then some ([v], r2)
        else none
      | [] => none

/-- The members of an object: `string : value` pairs separated by commas up to
the closing brace. -/
def objectMembers (pv : Str → Option (Json × Str)) : Nat → Str → Option (List (Str × Json) × Str)
  | 0, _ => none
  | n + 1, s =>
    match skipSpace s with
    | q :: r =>
      if q = '"' then
        match stringBody [] r with
        | none => none
        | some (key, r1) =>
          match skipSpace r1 with
          | colon :: r2 =>
            if colon = ':' then
              match pv r2 with
              | none => none
              | some (v, r3) =>
                match r3 with
                | c :: r4 =>
                  if c = ',' then
                    match objectMembers pv n r4 with
                    | some (ms, r5) => some ((key, v) :: ms, r5)
                    | none => none
                  else if c = '\x7d' then some ([(key, v)], r4)
                  else none
                | [] => none
            else none
          | [] => none
      else none
    | [] => none

/-- One JSON value with the white space around it, and the text after it.
The first argument bounds the nesting depth. -/
def jsonValue : Nat → Str → Option (Json × Str)
  | 0, _ => none
  | depth + 1, s =>
    match skipSpace s with
    | [] => none
    | c :: r =>
      if c = '\x7b' then
        match skipSpace r with
        | d :: r2 =>
          if d = '\x7d' then some (Json.obj [], skipSpace r2)
          else
            match objectMembers (jsonValue depth) (r.length + 1) r with
            | some (ms, r3) => some (Json.obj ms, skipSpace r3)
            | none => none
        | [] => none
      else if c = '[' then
        match skipSpace r with
        | d :: r2 =>
          if d = ']' then some (Json.arr [], skipSpace r2)
          else
            match arrayItems (jsonValue depth) (r.length + 1) r with
            | some (vs, r3) => some (Json.arr vs, skipSpace r3)
            | none => none
        | [] => none
      else if c = '"' then
        match stringBody [] r with
        | some (tok, r2) => some (Json.str tok, skipSpace r2)
        | none => none
      else if c = 't' then
        match r with
        | 'r' :: 'u' :: 'e' :: r2 => some (Json.bool true, skipSpace r2)
        | _ => none
      else if c = 'f' then
        match r with
        | 'a' :: 'l' :: 's' :: 'e' :: r2 => some (Json.bool false, skipSpace r2)
        | _ => none
      else if c = 'n' then
        match r with
        | 'u' :: 'l' :: 'l' :: r2 => some (Json.null, skipSpace r2)
        | _ => none
      else
        match numberToken (c :: r) with
        | some (tok, r2) => some (Json.num tok, skipSpace r2)
        | none => none

/-- A model of the built-in `JSON.parse` on the JSON grammar: the tree of the
text, or `none` when the text is not one JSON value.  A value cannot nest
deeper than the text is long. -/
def jsonParse (text : Str) : Option Json :=
  match jsonValue (text.length + 1) text with
  | some (v, []) => some v
  | _ => none

/-! ## aiService.js: the pipeline of `AutoTestService` -/

/-- The three capabilities of an adapter, in the order `runAutoTest` calls
them. -/
inductive Capability where
  | analyze
  | generateTestCases
  | generateReport
deriving DecidableEq, Repr

/-- An adapter (`this.aiService`): each capability, given its two arguments
and the state `σ` of the outside world, resolves with a value or rejects with
an error (its message).  Every `throw` of the adapters raises an `Error`
object, so a rejection carries a message. -/
structure Adapter (σ V : Type) where
  analyze : V → V → σ → Except Str V × σ
  generateTestCases : V → V → σ → Except Str V × σ
  generateReport : V → V → σ → Except Str V × σ

/-- The fields of an `AutoTestService` instance. -/
structure AutoTestService (σ V : Type) where
  aiProvider : Str
  aiService : Option (Adapter σ V)

/-- The prompt set read by `runAutoTest`. -/
structure Prompts (V : Type) where
  analysis : V
  testCase : V
  report : V

/-- The object `runAutoTest` returns; a field never assigned is `none`. -/
structure RunResult (V : Type) where
  provider : Str
  timestamp : Str
  steps : List Str
  analysis : Option V := none
  testCases : Option V := none
  report : Option V := none
  error : Option Str := none
deriving DecidableEq, Repr

/-- The state of a run: the world and the capabilities invoked so far, oldest
first. -/
structure RunState (σ : Type) where
  world : σ
  invoked : List Capability

/-- One awaited adapter call: the capability is recorded as invoked and the
adapter answers. -/
def invoke {σ V : Type} (cap : Capability) (call : σ → Except Str V × σ) (st : RunState σ) :
    Except Str V × RunState σ :=
  ((call st.world).1, ⟨(call st.world).2, st.invoked ++ [cap]⟩)

/-- `AutoTestService.runAutoTest`; `now` is the reading
`new Date().toISOString()`.  The outer `Except` is an error raised to the
caller; an error caught by the `catch` block is written to `results.error`. -/
def runAutoTest {σ V : Type} (this : AutoTestService σ V) (now : Str) (testConfig : V)
    (prompts : Prompts V) (w : σ) : Except Str (RunResult V) × RunState σ :=
  match this.aiService with
  | none => (Except.error "AI服务未初始化，请先调用 init() 方法".toList, ⟨w, []⟩)
  | some a =>
    let results : RunResult V := { provider := this.aiProvider, timestamp := now, steps := [] }
    match invoke Capability.analyze (a.analyze testConfig prompts.analysis) ⟨w, []⟩ with
    | (Except.error e, st1) => (Except.ok { results with error := some e }, st1)
    | (Except.ok analysis, st1) =>
      let r1 : RunResult V :=
        { results with analysis := some analysis, steps := results.steps ++ ["页面分析完成".toList] }
      match invoke Capability.generateTestCases
          (a.generateTestCases analysis prompts.testCase) st1 with
      | (Except.error e, st2) => (Except.ok { r1 with error := some e }, st2)
      | (Except.ok testCases, st2) =>
        let r2 : RunResult V :=
          { r1 with testCases := some testCases, steps := r1.steps ++ ["测试用例生成完成".toList] }
        match invoke Capability.generateReport
            (a.generateReport testCases prompts.report) st2 with
        | (Except.error e, st3) => (Except.ok { r2 with error := some e }, st3)
        | (Except.ok report, st3) =>
          (Except.ok { r2 with report := some report, steps := r2.steps ++ ["测试报告生成完成".toList] },
           st3)

/-! ## The fenced block of a response, as the specification words it -/

/-- The text `s` starts with the text `p`. -/
def startsWith : Str → Str → Bool
  | [], _ => true
  | _ :: _, [] => false
  | p :: ps, c :: cs => p == c && startsWith ps cs

/-- A fence: three backticks. -/
def fence : Str := "```".toList

/-- The text after the first occurrence of `opener` in the text. -/
def afterFirst (opener : Str) : Str → Option Str
  | [] => if startsWith opener [] then some [] else none
  | c :: cs =>
    if startsWith opener (c :: cs) then some ((c :: cs).drop opener.length)
    else afterFirst opener cs

/-- The text before the first fence of the text and the text after that
fence; nothing when the text holds no fence. -/
def closeFence : Str → Option (Str × Str)
  | [] => none
  | c :: cs =>
    if startsWith fence (c :: cs) then some ([], (c :: cs).drop 3)
    else
      match closeFence cs with
      | some (x, r) => some (c :: x, r)
      | none => none

/-- The text without its trailing white space. -/
def trimEnd : Str → Str
  | [] => []
  | c :: cs =>
    match trimEnd cs with
    | [] => if isJsSpace c then [] else [c]
    | d :: ds => c :: d :: ds

/-- The text without its leading and trailing white space. -/
def trimSpace (s : Str) : Str := trimEnd (s.dropWhile isJsSpace)

/-- The whitespace-trimmed content of the fenced block opened by `opener`: the
text between the first occurrence of `opener` and the next fence. -/
def fencedContent (opener text : Str) : Option Str :=
  match afterFirst opener text with
  | none => none
  | some rest =>
    match closeFence rest with
    | none => none
    | some (x, _) => some (trimSpace x)

/-- The whitespace-trimmed content of the first fenced block of a response:
of the first block opened by a json fence, else of the first block opened by a
plain fence. -/
def fencedBlock (text : Str) : Option Str :=
  match fencedContent "```json".toList text with
  | some c => some c
  | none => fencedContent fence text

/-! ## aiService.js: the factory and the adapter classes -/

/-- The six adapter classes: `ClaudeService`, `DeepSeekService`,
`OpenAIService`, `GeminiService`, `QwenService`, `GLMService`. -/
inductive Vendor where
  | claude
  | deepseek
  | openai
  | gemini
  | qwen
  | glm
deriving DecidableEq, Repr

/-- The `case` label of a class in the `switch` of `AIServiceFactory.create`. -/
def Vendor.id : Vendor → Str
  | Vendor.claude => "claude".toList
  | Vendor.deepseek => "deepseek".toList
  | Vendor.openai => "openai".toList
  | Vendor.gemini => "gemini".toList
  | Vendor.qwen => "qwen".toList
  | Vendor.glm => "glm".toList

/-- The labels of the `switch`, in its order. -/
def supportedIds : List Str :=
  [Vendor.claude.id, Vendor.deepseek.id, Vendor.openai.id, Vendor.gemini.id, Vendor.qwen.id,
   Vendor.glm.id]

/-- The configuration object handed to a constructor; each field may be
absent. -/
structure ProviderConfig where
  apiKey : Option Str := none
  baseURL : Option Str := none
  model : Option Str := none
deriving DecidableEq, Repr

/-- The client object of a vendor SDK held by an adapter, given by the
options it was constructed with. -/
inductive Client where
  | none
  | anthropic (apiKey : Option Str)
  | openai (apiKey : Option Str) (baseURL : Str)
deriving DecidableEq, Repr

/-- The vendor SDK packages, which are outside the repository: for each of the
two client constructors the adapter classes call, the message of the error it
raises on the given options, or nothing when it returns a client.
`anthropicFault` is given the `apiKey` of `new Anthropic({ apiKey })`,
`openaiFault` the `apiKey` and `baseURL` of `new OpenAI({ apiKey, baseURL })`. -/
structure Sdk where
  anthropicFault : Option Str → Option Str
  openaiFault : Option Str → Str → Option Str

/-- The errors `AIServiceFactory.create` raises, with their messages: the
`Error` of the `default` branch of its `switch`, or the error a client
constructor of an SDK raised inside the constructor of an adapter class. -/
inductive CreateError where
  | unsupportedProvider (message : Str)
  | sdk (message : Str)
deriving DecidableEq, Repr

/-- The expression `a || d` on a string that may be absent: an absent or empty
string gives way to `d`. -/
def orDefault (a : Option Str) (d : Str) : Str :=
  match a with
  | some (c :: cs) => c :: cs
  | _ => d

/-- An adapter object: its class and the fields its constructor sets. -/
structure Service where
  vendor : Vendor
  config : ProviderConfig
  apiKey : Option Str
  baseURL : Option Str
  model : Str
  client : Client
deriving DecidableEq, Repr

/-- The constructor of each class: the base constructor copies the three
fields of the configuration, the class then constructs its SDK client, which
may raise, or sets the default of its endpoint, and sets the default of its
model. -/
def construct (sdk : Sdk) (vendor : Vendor) (config : ProviderConfig) :
    Except CreateError Service :=
  match vendor with
  | Vendor.claude =>
    match sdk.anthropicFault config.apiKey with
    | some message => Except.error (CreateError.sdk message)
    | none =>
      Except.ok
        { vendor := vendor, config := config, apiKey := config.apiKey, baseURL := config.baseURL
          model := orDefault config.model "claude-sonnet-4-20250514".toList
          client := Client.anthropic config.apiKey }
  | Vendor.deepseek =>
    Except.ok
      { vendor := vendor, config := config, apiKey := config.apiKey
        baseURL := some (orDefault config.baseURL "https://api.deepseek.com/v1".toList)
        model := orDefault config.model "deepseek-chat".toList
        client := Client.none }
  | Vendor.openai =>
    match sdk.openaiFault config.apiKey
        (orDefault config.baseURL "https://api.openai.com/v1".toList) with
    | some message => Except.error (CreateError.sdk message)
    | none =>
      Except.ok
        { vendor := vendor, config := config, apiKey := config.apiKey, baseURL := config.baseURL
          model := orDefault config.model "gpt-4-turbo".toList
          client :=
            Client.openai config.apiKey
              (orDefault config.baseURL "https://api.openai.com/v1".toList) }
  | Vendor.gemini =>
    Except.ok
      { vendor := vendor, config := config, apiKey := config.apiKey
        baseURL :=
          some (orDefault config.baseURL "https://generativelanguage.googleapis.com/v1beta".toList)
        model := orDefault config.model "gemini-pro".toList
        client := Client.none }
  | Vendor.qwen =>
    Except.ok
      { vendor := vendor, config := config, apiKey := config.apiKey
        baseURL := some (orDefault config.baseURL "https://dashscope.aliyuncs.com/api/v1".toList)
        model := orDefault config.model "qwen-max".toList
        client := Client.none }
  | Vendor.glm =>
    Except.ok
      { vendor := vendor, config := config, apiKey := config.apiKey
        baseURL := some (orDefault config.baseURL "https://open.bigmodel.cn/api/paas/v4".toList)
        model := orDefault config.model "glm-4".toList
        client := Client.none }

/-- `AIServiceFactory.create`.  The built-in `String.prototype.toLowerCase` is
the argument `toLowerCase`; an error raised by the constructor of the class
passes through. -/
def create (sdk : Sdk) (toLowerCase : Str → Str) (provider : Str) (config : ProviderConfig) :
    Except CreateError Service :=
  if toLowerCase provider = "claude".toList then construct sdk Vendor.claude config
  else if toLowerCase provider = "deepseek".toList then construct sdk Vendor.deepseek config
  else if toLowerCase provider = "openai".toList then construct sdk Vendor.openai config
  else if toLowerCase provider = "gemini".toList then construct sdk Vendor.gemini config
  else if toLowerCase provider = "qwen".toList then construct sdk Vendor.qwen config
  else if toLowerCase provider = "glm".toList then construct sdk Vendor.glm config
  else Except.error (CreateError.unsupportedProvider ("不支持的AI提供商: ".toList ++ provider))

/-- The methods the body of each adapter class defines. -/
def ownMethods : Vendor → List String
  | Vendor.claude => ["analyze", "generateTestCases", "generateReport"]
  | Vendor.deepseek => ["makeRequest", "analyze", "generateTestCases", "generateReport"]
  | Vendor.openai => ["analyze", "generateTestCases", "generateReport"]
  | Vendor.gemini => ["makeRequest", "analyze", "generateTestCases", "generateReport"]
  | Vendor.qwen => ["makeRequest", "analyze", "generateTestCases", "generateReport"]
  | Vendor.glm => ["makeRequest", "analyze", "generateTestCases", "generateReport"]

/-- The methods of `BaseAIService`: the three stubs that raise and the two
shared helpers. -/
def baseMethods : List String :=
  ["analyze", "generateTestCases", "generateReport", "fillTemplate", "parseJSON"]

/-- The three capabilities of the adapter contract. -/
def capabilities : List String := ["analyze", "generateTestCases", "generateReport"]

/-- Where the lookup of a method on an adapter object ends: in the class of
the object or in `BaseAIService`. -/
inductive MethodOwner where
  | adapterClass
  | baseClass
deriving DecidableEq, Repr

/-- The lookup of a method on an adapter object: the class of the object
first, then the class it extends. -/
def Service.method (s : Service) (name : String) : Option MethodOwner :=
  if name ∈ ownMethods s.vendor then some MethodOwner.adapterClass
  else if name ∈ baseMethods then some MethodOwner.baseClass
  else none

/-- Lower-casing of the letters A to Z, every other character kept. -/
def asciiLower (s : Str) : Str := s.map Char.toLower

/-- An SDK whose OpenAI client constructor raises when no API key is given,
as the constructor of the `openai` package does when the environment holds no
key either, and whose Anthropic client constructor does not raise. -/
def strictSdk : Sdk :=
  { anthropicFault := fun _ => none
    openaiFault := fun apiKey _ =>
      match apiKey with
      | none => some "Missing credentials".toList
      | some _ => none }

/-! ## aiService.js: switching the adapter of an instance -/

/-- `AutoTestService.switchAI`: the provider is stored, then the adapter the
factory returns.  `factory` stands for `AIServiceFactory.create` together with
the behaviour of the adapter it returns; when it raises, the provider has been
stored and the adapter is the one held before. -/
def switchAI {σ V C : Type} (factory : Str → C → Except Str (Adapter σ V))
    (this : AutoTestService σ V) (provider : Str) (config : C) :
    Except Str Unit × AutoTestService σ V :=
  match factory provider config with
  | Except.error e => (Except.error e, { this with aiProvider := provider })
  | Except.ok a => (Except.ok (), { aiProvider := provider, aiService := some a })

/-- The calls of `switchAI` made on an instance, one after the other, while a
run on it is suspended at an `await`. -/
def applySwitches {σ V C : Type} (factory : Str → C → Except Str (Adapter σ V))
    (this : AutoTestService σ V) : List (Str × C) → AutoTestService σ V
  | [] => this
  | (provider, config) :: rest =>
    applySwitches factory (switchAI factory this provider config).2 rest

/-- The message of the `TypeError` of calling a method on `this.aiService`
when it is `null`. -/
def nullAdapterMessage (method : String) : Str :=
  "Cannot read properties of null (reading '".toList ++ method.toList ++ "')".toList

/-- `AutoTestService.runAutoTest` with the calls of `switchAI` that other
requests make on the same instance while the run is suspended: `during1`
while `analyze` is awaited, `during2` while `generateTestCases` is awaited.
Each stage reads `this.aiService` when it starts.  The result is that of the
run and the instance as the run leaves it. -/
def runAutoTestDuring {σ V C : Type} (factory : Str → C → Except Str (Adapter σ V))
    (this : AutoTestService σ V) (now : Str) (testConfig : V) (prompts : Prompts V) (w : σ)
    (during1 during2 : List (Str × C)) :
    (Except Str (RunResult V) × RunState σ) × AutoTestService σ V :=
  match this.aiService with
  | none => ((Except.error "AI服务未初始化，请先调用 init() 方法".toList, ⟨w, []⟩), this)
  | some a0 =>
    let results : RunResult V := { provider := this.aiProvider, timestamp := now, steps := [] }
    let this1 := applySwitches factory this during1
    match invoke Capability.analyze (a0.analyze testConfig prompts.analysis) ⟨w, []⟩ with
    | (Except.error e, st1) => ((Except.ok { results with error := some e }, st1), this1)
    | (Except.ok analysis, st1) =>
      let r1 : RunResult V :=
        { results with analysis := some analysis, steps := results.steps ++ ["页面分析完成".toList] }
      match this1.aiService with
      | none =>
        ((Except.ok { r1 with error := some (nullAdapterMessage "generateTestCases") }, st1),
         this1)
      | some a1 =>
        let this2 := applySwitches factory this1 during2
        match invoke Capability.generateTestCases
            (a1.generateTestCases analysis prompts.testCase) st1 with
        | (Except.error e, st2) => ((Except.ok { r1 with error := some e }, st2), this2)
        | (Except.ok testCases, st2) =>
          let r2 : RunResult V :=
            { r1 with
              testCases := some testCases, steps := r1.steps ++ ["测试用例生成完成".toList] }
          match this2.aiService with
          | none =>
            ((Except.ok { r2 with error := some (nullAdapterMessage "generateReport") }, st2),
             this2)
          | some a2 =>
            match invoke Capability.generateReport
                (a2.generateReport testCases prompts.report) st2 with
            | (Except.error e, st3) => ((Except.ok { r2 with error := some e }, st3), this2)
            | (Except.ok report, st3) =>
              ((Except.ok
                  { r2 with
                    report := some report, steps := r2.steps ++ ["测试报告生成完成".toList] },
                st3), this2)

/-- The adapter an instance holds, or `a` when it holds none. -/
def adapterOr {σ V : Type} (this : AutoTestService σ V) (a : Adapter σ V) : Adapter σ V :=
  match this.aiService with
  | some held => held
  | none => a

/-! ## aiService.js: template filling -/

/-- The characters with a meaning of their own in a regular expression. -/
def isRegExpMeta (c : Char) : Bool := "^$\\.*+?()[]\x7b\x7d|".toList.contains c

/-- A key without regular-expression metacharacters. -/
def plainKey (key : Str) : Bool := key.all (fun c => !isRegExpMeta c)

/-- A key of the form `n`, `n,` or `n,m` with decimal numbers: between
braces it reads as a quantifier. -/
def bracedQuantifier (key : Str) : Bool :=
  !(key.takeWhile Char.isDigit).isEmpty &&
  (match key.dropWhile Char.isDigit with
   | [] => true
   | c :: rest => c == ',' && rest.all Char.isDigit)

/-- The placeholder of a key: the key between braces. -/
def placeholder (key : Str) : Str := '\x7b' :: key ++ ['\x7d']

/-- What `new RegExp('{' + key + '}', 'g')` gives: for a key without
metacharacters the expression that matches the placeholder literally, unless
the braces read as a quantifier with nothing to repeat, which is a
`SyntaxError`.  A key with metacharacters is not modelled. -/
inductive KeyRegExp where
  | items (re : List Item)
  | syntaxError
  | notModelled

/-- The expression `fillTemplate` builds for a key. -/
def keyRegExp (key : Str) : KeyRegExp :=
  if plainKey key then
    if bracedQuantifier key then KeyRegExp.syntaxError
    else KeyRegExp.items ((placeholder key).map Item.lit)
  else KeyRegExp.notModelled

/-- `s.replace(re, replacement)` for a global expression without capture
groups and a replacement string: every match is replaced by the expansion of
the replacement string.  The first argument counts the characters of the
current match still to be passed, the second is the text passed so far,
reversed.  The expressions of `fillTemplate` never match the empty string. -/
def replaceAllFrom (re : List Item) (replacement : Str) : Nat → Str → Str → Str
  | _, _, [] => []
  | n + 1, passed, c :: cs => replaceAllFrom re replacement n (c :: passed) cs
  | 0, passed, c :: cs =>
    match matchItems re (c :: cs) with
    | some (_, r) =>
      expandReplacement passed.reverse (consumed (c :: cs) r) r replacement ++
        replaceAllFrom re replacement ((c :: cs).length - r.length - 1) (c :: passed) cs
    | none => c :: replaceAllFrom re replacement 0 (c :: passed) cs

/-- `s.replace(re, replacement)` for a global expression. -/
def replaceAll (re : List Item) (replacement s : Str) : Str :=
  replaceAllFrom re replacement 0 [] s

/-- What `fillTemplate` does: it returns a text, or raises the `SyntaxError` of
a pattern; `notModelled` stands for a key outside the model. -/
inductive Filled where
  | text (s : Str)
  | syntaxError (pattern : Str)
  | notModelled (pattern : Str)
deriving DecidableEq, Repr

/-- The loop of `fillTemplate` over the entries of `vars`, in the order
`Object.entries` lists them. -/
def fillFrom : Str → List (Str × Str) → Filled
  | result, [] => Filled.text result
  | result, (key, value) :: rest =>
    match keyRegExp key with
    | KeyRegExp.items re => fillFrom (replaceAll re value result) rest
    | KeyRegExp.syntaxError => Filled.syntaxError (placeholder key)
    | KeyRegExp.notModelled => Filled.notModelled (placeholder key)

/-- `BaseAIService.fillTemplate`. -/
def fillTemplate (template : Str) (vars : List (Str × Str)) : Filled := fillFrom template vars

/-- Substitution of a fixed text as the specification words it: every
occurrence of `pat`, left to right and without overlap, is replaced by
exactly `rep` and every other character is kept.  The first argument counts
the characters of the current occurrence still to be passed. -/
def substituteFrom (pat rep : Str) : Nat → Str → Str
  | _, [] => []
  | n + 1, _ :: cs => substituteFrom pat rep n cs
  | 0, c :: cs =>
    if startsWith pat (c :: cs) then rep ++ substituteFrom pat rep (pat.length - 1) cs
    else c :: substituteFrom pat rep 0 cs

/-- Every occurrence of `pat` replaced by `rep`. -/
def substitute (pat rep s : Str) : Str := substituteFrom pat rep 0 s

/-- The value of the first entry whose placeholder the text starts with, and
the length of that placeholder. -/
def placeholderAt (vars : List (Str × Str)) (s : Str) : Option (Str × Nat) :=
  match vars.find? (fun kv => startsWith (placeholder kv.1) s) with
  | some kv => some (kv.2, (placeholder kv.1).length)
  | none => none

/-- Simultaneous substitution as the specification words it: in one pass over
the template every placeholder of a key of the mapping is replaced by the
value of the key, and the inserted values are not scanned again. -/
def fillSimultaneousFrom (vars : List (Str × Str)) : Nat → Str → Str
  | _, [] => []
  | n + 1, _ :: cs => fillSimultaneousFrom vars n cs
  | 0, c :: cs =>
    match placeholderAt vars (c :: cs) with
    | some (value, len) => value ++ fillSimultaneousFrom vars (len - 1) cs
    | none => c :: fillSimultaneousFrom vars 0 cs

/-- Simultaneous substitution of the placeholders of a mapping. -/
def fillSimultaneous (template : Str) (vars : List (Str × Str)) : Str :=
  fillSimultaneousFrom vars 0 template

/-! ## Concrete inputs -/

/-- A run configuration without password. -/
def sampleConfig : Config :=
  { url := "http://app.test/".toList
    username := "tester".toList
    password := none
    tabName := "Orders".toList
    testData := [] }

/-- Test case TC1, one click step. -/
def caseOpen : TestCase :=
  { id := "TC1".toList
    name := "open".toList
    steps := [{ action := "click".toList, selector := some "#open".toList }]
    expectedResult := "Orders".toList }

/-- Test case TC2, one fill step. -/
def caseSearch : TestCase :=
  { id := "TC2".toList
    name := "search".toList
    steps := [{ action := "fill".toList, selector := some "#q".toList, value := some "abc".toList }]
    expectedResult := "abc".toList }

/-- A test case with the id of `caseOpen` and another name and body. -/
def caseReopen : TestCase :=
  { id := "TC1".toList
    name := "reopen".toList
    steps := [{ action := "navigate".toList, url := some "http://app.test/orders".toList }]
    expectedResult := "Reopened".toList }

/-- A test case whose second step has the action tag `hover`. -/
def caseHover : TestCase :=
  { id := "TC3".toList
    name := "hover".toList
    steps := [{ action := "click".toList, selector := some "#menu".toList },
              { action := "hover".toList, selector := some "#item".toList }]
    expectedResult := "Menu".toList }

/-- A test case without steps. -/
def caseLook : TestCase :=
  { id := "TC4".toList, name := "look".toList, steps := [], expectedResult := "Orders".toList }

/-- The script synthesized for `caseOpen`. -/
def scriptOpen : Str :=
  generate "2024/1/1 10:00:00".toList "2024-01-01T02:00:00.000Z".toList sampleConfig [caseOpen]

/-- The script synthesized for `caseSearch`. -/
def scriptSearch : Str :=
  generate "2024/1/2 10:00:00".toList "2024-01-02T02:00:00.000Z".toList sampleConfig [caseSearch]

/-- The script synthesized for `caseReopen`. -/
def scriptReopen : Str :=
  generate "2024/1/2 10:00:00".toList "2024-01-02T02:00:00.000Z".toList sampleConfig [caseReopen]

/-- A browser where every call resolves (`page.evaluate` with `true`) except
the screenshot, which rejects. -/
def screenshotFaults : Browser Unit := fun c s =>
  match c with
  | Call.screenshot _ => (Except.error "disk full".toList, s)
  | _ => (Except.ok true, s)

/-- Record A of an existing artifact. -/
def recA : TestRecord := { id := "A".toList, code := "test('A', () => \x7b a(); \x7d);".toList }

/-- Record B of an existing artifact. -/
def recB : TestRecord := { id := "B".toList, code := "test('B', () => \x7b b(); \x7d);".toList }

/-- Record B of a new artifact: the id of `recB`, another body. -/
def recB2 : TestRecord := { id := "B".toList, code := "test('B', () => \x7b b2(); \x7d);".toList }

/-- Record C of a new artifact. -/
def recC : TestRecord := { id := "C".toList, code := "test('C', () => \x7b c(); \x7d);".toList }

/-- An existing artifact with a suite and no test declaration. -/
def emptySuite : Str := "test.describe('Orders', () => \x7b\n  // no tests yet\n\x7d);\n".toList

/-- A new artifact with one test declaration. -/
def oneTestSuite : Str :=
  "test.describe('Orders', () => \x7b\n  test('TC9 - new', async () => \x7b\n  \x7d);\n\x7d);\n".toList

/-- The instruction a step contributes to the joined step list: what the
callback returns, or the empty string when it returns nothing. -/
def stepInstruction (step : Step) : Str := joinElem (renderStep step)

/-- The action tag is one of the three the generator and the executor know. -/
def knownAction (action : Str) : Bool :=
  action == "click".toList || action == "fill".toList || action == "navigate".toList

/-- The head of the replacement `assembleScript` puts in place of the first
`test.describe` header. -/
def mergedHeader : Str := "test.describe('合并的测试', () => \x7b\n\n  ".toList

/-- An adapter over a world that counts calls: `analyze` resolves,
`generateTestCases` rejects. -/
def failingAdapter : Adapter Nat Str :=
  { analyze := fun _ _ n => (Except.ok "analysis".toList, n + 1)
    generateTestCases := fun _ _ n => (Except.error "quota exceeded".toList, n + 1)
    generateReport := fun _ _ n => (Except.ok "report".toList, n + 1) }

/-- A service initialised with `failingAdapter`. -/
def sampleService : AutoTestService Nat Str :=
  { aiProvider := "deepseek".toList, aiService := some failingAdapter }

/-- A prompt set. -/
def samplePrompts : Prompts Str :=
  { analysis := "analyse".toList, testCase := "cases".toList, report := "report".toList }

/-- A browser where launching resolves and opening the page rejects. -/
def newPageFaults : Browser Unit := fun c s =>
  match c with
  | Call.newPage => (Except.error "no page".toList, s)
  | _ => (Except.ok true, s)

/-- The number of times the session was closed in a trace. -/
def closeCount (trace : List Call) : Nat := trace.count Call.close

/-- The object `results` as `runTests` creates it. -/
def freshResults (testCases : List TestCase) : Results :=
  { total := testCases.length, passed := 0, failed := 0, details := [], screenshots := [] }

/-- The message of the fault, if there is one, of processing a test case in
the loop of `runTests` from the world `w`: a rejection in a step or in the
evaluation (inside `executeTestCase`), or of the screenshot call. -/
def caseFault {σ : Type} (b : Browser σ) (testCase : TestCase) (w : World σ) : Option Str :=
  match executeTestCase b testCase w with
  | (Except.error e, _) => some e
  | (Except.ok _, w1) =>
    match perform b (Call.screenshot (screenshotPath testCase)) w1 with
    | (Except.error e, _) => some e
    | (Except.ok _, _) => none

/-- The entry the `catch` block pushes for a test case. -/
def faultEntry (testCase : TestCase) (message : Str) : Detail :=
  { testCaseId := testCase.id, passed := false, error := some message }

/-- A browser where clicking rejects and every other call resolves. -/
def clickFaults : Browser Unit := fun c s =>
  match c with
  | Call.click (some [Char.ofNat 35, 'o', 'p', 'e', 'n']) =>
    (Except.error "no element".toList, s)
  | _ => (Except.ok true, s)

/-- A browser where clicking `#open` and closing the session reject. -/
def clickAndCloseFault : Browser Unit := fun c s =>
  match c with
  | Call.click (some [Char.ofNat 35, 'o', 'p', 'e', 'n']) =>
    (Except.error "no element".toList, s)
  | Call.close => (Except.error "close failed".toList, s)
  | _ => (Except.ok true, s)

/-- An adapter that answers each capability with a text tagged with `tag`. -/
def taggedAdapter (tag : String) : Adapter Unit Str :=
  { analyze := fun _ _ s => (Except.ok (tag.toList ++ " analysis".toList), s)
    generateTestCases := fun _ _ s => (Except.ok (tag.toList ++ " cases".toList), s)
    generateReport := fun _ _ s => (Except.ok (tag.toList ++ " report".toList), s) }

/-- A factory of tagged adapters for the providers `claude` and `deepseek`. -/
def taggedFactory : Str → Unit → Except Str (Adapter Unit Str) := fun provider _ =>
  if provider = "claude".toList then Except.ok (taggedAdapter "claude")
  else if provider = "deepseek".toList then Except.ok (taggedAdapter "deepseek")
  else Except.error ("不支持的AI提供商: ".toList ++ provider)

/-- A service initialised with the tagged adapter of `claude`. -/
def claudeService : AutoTestService Unit Str :=
  { aiProvider := "claude".toList, aiService := some (taggedAdapter "claude") }

/-! ## Theorems -/

/-- C1 (code defect): on one test case whose steps and evaluation succeed and
whose screenshot call rejects, runTests returns total = 1 with passed = 1 and
failed = 1, and two detail entries for the one case: the entry pushed before
the screenshot and the error entry pushed by the catch block. -/
theorem runTests_screenshot_fault_counted_twice :
    (runTests screenshotFaults sampleConfig [caseLook] ⟨(), []⟩).1 =
      Except.ok
        { total := 1
          passed := 1
          failed := 1
          details :=
            [{ testCaseId := "TC4".toList, passed := true, actualResult := some "Orders".toList },
             { testCaseId := "TC4".toList, passed := false, error := some "disk full".toList }]
          screenshots := [] } := by
  decide

/-- Filtering the first occurrences by a property of the id is taking the
first occurrences of the filtered list. -/
theorem firstOccurrences_filter (p : Str → Bool) (l : List TestRecord) :
    (firstOccurrences l).filter (fun u => p u.id) =
      firstOccurrences (l.filter (fun u => p u.id)) := by
  induction l with
  | nil => rfl
  | cons t ts ih =>
    by_cases hp : p t.id = true
    · simp only [firstOccurrences, List.filter_cons, hp, if_true]
      rw [← ih, List.filter_filter, List.filter_filter]
      congr 2
      funext u
      exact Bool.and_comm _ _
    · simp only [firstOccurrences, List.filter_cons, hp, Bool.false_eq_true, if_false]
      rw [← ih, List.filter_filter]
      apply List.filter_congr
      intro u _
      by_cases hu : p u.id = true
      · have hne : u.id ≠ t.id := fun h => hp (h ▸ hu)
        simp [hu, hne]
      · simp [hu]

/-- The filter of deduplicateTests keeps the first occurrences of the records
whose id is not yet in the set. -/
theorem dedupFrom_eq (seen : List Str) (l : List TestRecord) :
    dedupFrom seen l = firstOccurrences (l.filter (fun t => !(seen.contains t.id))) := by
  induction l generalizing seen with
  | nil => rfl
  | cons t ts ih =>
    by_cases h : t.id ∈ seen
    · simp [dedupFrom, h, ih]
    · rw [dedupFrom, if_neg h, ih, List.filter_cons]
      have hc : (!(seen.contains t.id)) = true := by simpa using h
      rw [if_pos hc, firstOccurrences,
        firstOccurrences_filter (fun i => i != t.id), List.filter_filter]
      congr 2
      apply List.filter_congr
      intro u _
      by_cases hu : u.id = t.id <;> simp [List.contains_cons, bne, hu]

/-- The ids of the first occurrences are pairwise distinct. -/
theorem firstOccurrences_nodup (l : List TestRecord) :
    ((firstOccurrences l).map (fun t => t.id)).Nodup := by
  induction l with
  | nil => simp [firstOccurrences]
  | cons t ts ih =>
    simp only [firstOccurrences, List.map_cons, List.nodup_cons]
    constructor
    · intro hmem
      obtain ⟨u, hu, hid⟩ := List.mem_map.1 hmem
      have := (List.mem_filter.1 hu).2
      simp [hid] at this
    · exact (ih.sublist ((List.filter_sublist _).map _))

/-- Records with pairwise distinct ids are their own first occurrences. -/
theorem firstOccurrences_of_nodup (l : List TestRecord)
    (h : (l.map (fun t => t.id)).Nodup) : firstOccurrences l = l := by
  induction l with
  | nil => rfl
  | cons t ts ih =>
    simp only [List.map_cons, List.nodup_cons] at h
    rw [firstOccurrences, ih h.2]
    congr 1
    apply List.filter_eq_self.2
    intro u hu
    have : u.id ≠ t.id := fun e => h.1 (e ▸ List.mem_map_of_mem _ hu)
    simpa using this

/-- The first occurrences of a concatenation whose first part has pairwise
distinct ids. -/
theorem firstOccurrences_append (e n : List TestRecord)
    (h : (e.map (fun t => t.id)).Nodup) :
    firstOccurrences (e ++ n) = specMerge e n := by
  induction e with
  | nil => simp [specMerge]
  | cons t ts ih =>
    simp only [List.map_cons, List.nodup_cons] at h
    have hts : ts.filter (fun u => u.id != t.id) = ts := by
      apply List.filter_eq_self.2
      intro u hu
      have : u.id ≠ t.id := fun e => h.1 (e ▸ List.mem_map_of_mem _ hu)
      simpa using this
    rw [List.cons_append, firstOccurrences, ih h.2, specMerge, List.filter_append, hts,
      firstOccurrences_filter (fun i => i != t.id), List.filter_filter, specMerge,
      List.cons_append]
    congr 3
    apply List.filter_congr
    intro u _
    by_cases hu : u.id = t.id <;> simp [List.contains_cons, bne, hu]
/-- The first occurrences form a sublist. -/
theorem firstOccurrences_sublist (l : List TestRecord) : (firstOccurrences l).Sublist l := by
  induction l with
  | nil => exact List.Sublist.refl _
  | cons t ts ih =>
    rw [firstOccurrences]
    exact ((List.filter_sublist _).trans ih).cons₂ t

/-- C3: for existing records with pairwise distinct ids, deduplicateTests on
existing ++ new gives the existing records followed by the first occurrences
of the new records whose id is not an existing one; the ids of the result are
pairwise distinct, and a record of the result whose id is an existing id is an
existing record (the existing body is kept). -/
theorem deduplicateTests_existing_first (existing new : List TestRecord)
    (h : (existing.map (fun t => t.id)).Nodup) :
    deduplicateTests (existing ++ new) = specMerge existing new ∧
    ((deduplicateTests (existing ++ new)).map (fun t => t.id)).Nodup ∧
    ∀ t ∈ deduplicateTests (existing ++ new),
      t.id ∈ existing.map (fun e => e.id) → t ∈ existing := by
  have hd : deduplicateTests (existing ++ new) = firstOccurrences (existing ++ new) := by
    rw [deduplicateTests, dedupFrom_eq]
    simp
  refine ⟨?_, ?_, ?_⟩
  · rw [hd, firstOccurrences_append existing new h]
  · rw [hd]
    exact firstOccurrences_nodup _
  · intro t ht hid
    rw [hd, firstOccurrences_append existing new h, specMerge, List.mem_append] at ht
    rcases ht with ht | ht
    · exact ht
    · have hmem := (firstOccurrences_sublist _).subset ht
      have hnot := (List.mem_filter.1 hmem).2
      simp only [List.contains_eq_any_beq, Bool.not_eq_true', List.any_eq_false, beq_iff_eq] at hnot
      obtain ⟨e, he, heq⟩ := List.mem_map.1 hid
      exact absurd heq.symm (by simpa using hnot e.id (List.mem_map_of_mem _ he))

/-- When a global expression has no match the text left over is the whole
text. -/
theorem scanRest_of_scanAll_nil (re : List Item) (lit s : Str)
    (h : scanAll re 0 lit s = []) : scanRest re 0 lit s = lit.reverse ++ s := by
  induction s generalizing lit with
  | nil => simp [scanRest]
  | cons c cs ih =>
    rw [scanAll] at h
    rw [scanRest]
    cases hm : matchItems re (c :: cs) with
    | some m => rw [hm] at h; cases h
    | none =>
      rw [hm] at h
      simp only [ih (c :: lit) h, List.reverse_cons, List.append_assoc, List.singleton_append]

/-- Removing the test declarations of a text without any leaves the text. -/
theorem removeAll_of_extractTests_nil (s : Str) (h : extractTests s = []) :
    removeAll testRegex s = s := by
  have h0 : scanAll testRegex 0 [] s = [] := by
    simpa [extractTests] using h
  rw [removeAll, h0, scanRest_of_scanAll_nil testRegex [] s h0]
  simp

/-- C5 (amended): for a non-empty existing text without test records,
mergeScripts does not fail; it returns the existing text with the first
test.describe header replaced by the merged header and the deduplicated
records of the new script, and saveScript writes that text over the existing
file. -/
theorem mergeScripts_without_records_succeeds (d : Dir) (name existing newScript timestamp : Str)
    (others : List Str) (hfirst : findSimilarScripts (Target.directory d) = name :: others)
    (hread : readFile d name = Except.ok existing) (_hne : existing ≠ [])
    (hzero : extractTests existing = []) :
    mergeScripts d name newScript =
      Except.ok (replaceFirst describeRegex
        (mergedHeader ++
          joinWith "\n\n  ".toList ((deduplicateTests (extractTests newScript)).map (fun t => t.code)) ++
          "\n\n".toList) existing) ∧
    saveScript (Target.directory d) newScript timestamp =
      Except.ok (name, writeFile d name (replaceFirst describeRegex
        (mergedHeader ++
          joinWith "\n\n  ".toList ((deduplicateTests (extractTests newScript)).map (fun t => t.code)) ++
          "\n\n".toList) existing)) := by
  have hm : mergeScripts d name newScript =
      Except.ok (replaceFirst describeRegex
        (mergedHeader ++
          joinWith "\n\n  ".toList ((deduplicateTests (extractTests newScript)).map (fun t => t.code)) ++
          "\n\n".toList) existing) := by
    simp only [mergeScripts, hread, hzero, List.nil_append, assembleScript,
      removeAll_of_extractTests_nil existing hzero, mergedHeader]
  refine ⟨hm, ?_⟩
  simp only [saveScript, hfirst, entriesOf, hm]

/-- The true half of C6: without a prior `.spec.js` entry at the target,
saveScript writes the new script verbatim under the new file name, in the
directory it finds or creates; when the target path is not a directory the
`mkdir` call rejects and nothing is written. -/
theorem saveScript_fresh_verbatim (newScript timestamp : Str) :
    saveScript Target.absent newScript timestamp =
      Except.ok ("test_".toList ++ timestamp ++ ".spec.js".toList,
        [("test_".toList ++ timestamp ++ ".spec.js".toList, Entry.file newScript)]) ∧
    (∀ d : Dir, findSimilarScripts (Target.directory d) = [] →
      saveScript (Target.directory d) newScript timestamp =
        Except.ok ("test_".toList ++ timestamp ++ ".spec.js".toList,
          writeFile d ("test_".toList ++ timestamp ++ ".spec.js".toList) newScript)) ∧
    saveScript Target.notDirectory newScript timestamp = Except.error FsError.alreadyExists := by
  refine ⟨rfl, ?_, rfl⟩
  intro d h
  simp only [saveScript, h, mkdirRecursive]

/-- A name with the suffix appended ends with the suffix. -/
theorem endsWith_append (a suffix : Str) : endsWith (a ++ suffix) suffix = true := by
  simp [endsWith]

/-- In a directory where no name ends in `.spec.js`, no entry has a name that
ends in `.spec.js`. -/
theorem readFile_of_no_similar (d : Dir) (name : Str)
    (hnone : findSimilarScripts (Target.directory d) = [])
    (hname : endsWith name ".spec.js".toList = true) :
    readFile d name = Except.error FsError.noEntry := by
  induction d with
  | nil => rfl
  | cons e rest ih =>
    obtain ⟨n, en⟩ := e
    simp only [findSimilarScripts, List.map_cons, List.filter_cons] at hnone
    by_cases hn : endsWith n ".spec.js".toList = true
    · rw [if_pos hn] at hnone
      cases hnone
    · rw [if_neg hn] at hnone
      have hne : n ≠ name := fun h => hn (h ▸ hname)
      simp only [readFile, if_neg hne]
      exact ih hnone

/-- The path saveScript writes is never the path of a directory: it is the
path of a regular file that was just read, or a path at which there is
nothing. -/
theorem saveScript_writes_file_path (target : Target) (newScript timestamp path : Str)
    (after : Dir) (h : saveScript target newScript timestamp = Except.ok (path, after)) :
    (∃ text, readFile (entriesOf target) path = Except.ok text) ∨
      readFile (entriesOf target) path = Except.error FsError.noEntry := by
  cases hs : findSimilarScripts target with
  | cons existing0 others =>
    left
    simp only [saveScript, hs, mergeScripts] at h
    cases hr : readFile (entriesOf target) existing0 with
    | error e => rw [hr] at h; cases h
    | ok existing =>
      rw [hr] at h
      simp only [Except.ok.injEq, Prod.mk.injEq] at h
      exact ⟨existing, h.1 ▸ hr⟩
  | nil =>
    right
    simp only [saveScript, hs] at h
    cases target with
    | absent =>
      simp only [entriesOf]
      rfl
    | notDirectory =>
      simp only [mkdirRecursive] at h
      cases h
    | directory d =>
      simp only [mkdirRecursive, Except.ok.injEq, Prod.mk.injEq] at h
      rw [← h.1]
      exact readFile_of_no_similar d _ hs (endsWith_append _ _)

/-- A file just written reads back as the text written. -/
theorem readFile_writeFile (d : Dir) (name text : Str) :
    readFile (writeFile d name text) name = Except.ok text := by
  induction d with
  | nil => simp [writeFile, readFile]
  | cons e rest ih =>
    obtain ⟨n, en⟩ := e
    by_cases hn : n = name
    · simp [writeFile, readFile, hn]
    · simp [writeFile, readFile, hn, ih]

/-- An element of a joined list is a part of the joined text. -/
theorem infix_joinWith (sep x : Str) (l : List Str) (h : x ∈ l) : x <:+: joinWith sep l := by
  induction l with
  | nil => cases h
  | cons a rest ih =>
    cases rest with
    | nil =>
      have : x = a := by simpa using h
      subst this
      exact List.infix_refl _
    | cons b rest2 =>
      rw [joinWith]
      rcases List.mem_cons.1 h with hx | hx
      · subst hx
        exact ⟨[], sep ++ joinWith sep (b :: rest2), by simp⟩
      · obtain ⟨s, t, e⟩ := ih hx
        exact ⟨a ++ sep ++ s, t, by simp [← e]⟩

/-- The joined text of a list with one empty element in the middle. -/
theorem generateSteps_append (pre post : List Step) (step : Step) :
    generateSteps (pre ++ step :: post) =
      joinWith "\n    ".toList
        (pre.map stepInstruction ++ stepInstruction step :: post.map stepInstruction) := by
  simp only [generateSteps, List.map_append, List.map_cons, List.map_map]
  rfl

/-- C7 (amended): when a step of a test case has an action tag other than
click, fill and navigate, generate still returns a script: the callback of
generateSteps returns nothing for that step, the step list of the test case is
joined with the empty string in the place of that step, and the declaration
rendered for the test case is part of the script. -/
theorem generate_renders_unknown_step_empty (localeNow isoNow : Str) (config : Config)
    (cases : List TestCase) (tc : TestCase) (pre post : List Step) (step : Step)
    (htc : tc ∈ cases) (hsteps : tc.steps = pre ++ step :: post)
    (hunknown : knownAction step.action = false) :
    renderStep step = none ∧
    generateSteps tc.steps =
      joinWith "\n    ".toList (pre.map stepInstruction ++ [] :: post.map stepInstruction) ∧
    renderTestCase tc <:+: generate localeNow isoNow config cases := by
  have hnone : renderStep step = none := by
    simp only [knownAction, Bool.or_eq_false_iff, beq_eq_false_iff_ne, ne_eq] at hunknown
    rw [renderStep, if_neg hunknown.1.1, if_neg hunknown.1.2, if_neg hunknown.2]
  refine ⟨hnone, ?_, ?_⟩
  · rw [hsteps, generateSteps_append]
    simp only [stepInstruction, hnone, joinElem]
  · obtain ⟨s, t, e⟩ :=
      infix_joinWith "\n".toList (renderTestCase tc) (cases.map renderTestCase)
        (List.mem_map_of_mem _ htc)
    refine ⟨scriptHead localeNow config ++ s, t ++ scriptTail isoNow config, ?_⟩
    simp only [generate, generateTestCases, ← e, List.append_assoc]

/-- C8: an initialised service returns a result object whatever the adapter
does.  When analyze rejects, steps is empty, error is the message and no other
field is set; when generateTestCases is the first to reject, steps holds the
analysis step and only analysis is set; when generateReport is the first to
reject, steps holds the first two steps and analysis and testCases are set;
when no call rejects, steps holds the three steps, the three fields are set
and error is absent.  In each case the capabilities invoked are those up to
and including the first that rejects, once each and in order. -/
theorem runAutoTest_returns_partial_result {σ V : Type} (this : AutoTestService σ V)
    (a : Adapter σ V) (hinit : this.aiService = some a) (now : Str) (testConfig : V)
    (prompts : Prompts V) (w : σ) :
    (∃ r st, runAutoTest this now testConfig prompts w = (Except.ok r, st)) ∧
    (∀ e w1, a.analyze testConfig prompts.analysis w = (Except.error e, w1) →
      runAutoTest this now testConfig prompts w =
        (Except.ok
          { provider := this.aiProvider, timestamp := now, steps := [], analysis := none,
            testCases := none, report := none, error := some e },
         ⟨w1, [Capability.analyze]⟩)) ∧
    (∀ v1 w1 e w2, a.analyze testConfig prompts.analysis w = (Except.ok v1, w1) →
      a.generateTestCases v1 prompts.testCase w1 = (Except.error e, w2) →
      runAutoTest this now testConfig prompts w =
        (Except.ok
          { provider := this.aiProvider, timestamp := now, steps := ["页面分析完成".toList],
            analysis := some v1, testCases := none, report := none, error := some e },
         ⟨w2, [Capability.analyze, Capability.generateTestCases]⟩)) ∧
    (∀ v1 w1 v2 w2 e w3, a.analyze testConfig prompts.analysis w = (Except.ok v1, w1) →
      a.generateTestCases v1 prompts.testCase w1 = (Except.ok v2, w2) →
      a.generateReport v2 prompts.report w2 = (Except.error e, w3) →
      runAutoTest this now testConfig prompts w =
        (Except.ok
          { provider := this.aiProvider, timestamp := now,
            steps := ["页面分析完成".toList, "测试用例生成完成".toList],
            analysis := some v1, testCases := some v2, report := none, error := some e },
         ⟨w3, [Capability.analyze, Capability.generateTestCases, Capability.generateReport]⟩)) ∧
    (∀ v1 w1 v2 w2 v3 w3, a.analyze testConfig prompts.analysis w = (Except.ok v1, w1) →
      a.generateTestCases v1 prompts.testCase w1 = (Except.ok v2, w2) →
      a.generateReport v2 prompts.report w2 = (Except.ok v3, w3) →
      runAutoTest this now testConfig prompts w =
        (Except.ok
          { provider := this.aiProvider, timestamp := now,
            steps := ["页面分析完成".toList, "测试用例生成完成".toList, "测试报告生成完成".toList],
            analysis := some v1, testCases := some v2, report := some v3, error := none },
         ⟨w3, [Capability.analyze, Capability.generateTestCases, Capability.generateReport]⟩)) := by
  refine ⟨?_, ?_, ?_, ?_, ?_⟩
  · simp only [runAutoTest, hinit, invoke]
    rcases h1 : a.analyze testConfig prompts.analysis w with ⟨_ | v1, w1⟩
    · exact ⟨_, _, rfl⟩
    · rcases h2 : a.generateTestCases v1 prompts.testCase w1 with ⟨_ | v2, w2⟩
      · simp only [h2]
        exact ⟨_, _, rfl⟩
      · rcases h3 : a.generateReport v2 prompts.report w2 with ⟨_ | v3, w3⟩
        · simp only [h2, h3]
          exact ⟨_, _, rfl⟩
        · simp only [h2, h3]
          exact ⟨_, _, rfl⟩
  · intro e w1 h1
    simp [runAutoTest, hinit, invoke, h1]
  · intro v1 w1 e w2 h1 h2
    simp [runAutoTest, hinit, invoke, h1, h2]
  · intro v1 w1 v2 w2 e w3 h1 h2 h3
    simp [runAutoTest, hinit, invoke, h1, h2, h3]
  · intro v1 w1 v2 w2 v3 w3 h1 h2 h3
    simp [runAutoTest, hinit, invoke, h1, h2, h3]

/-- A text starts with `p` exactly when it is `p` followed by some text. -/
theorem startsWith_iff (p s : Str) : startsWith p s = true ↔ ∃ r, s = p ++ r := by
  induction p generalizing s with
  | nil => simp [startsWith]
  | cons a p ih =>
    cases s with
    | nil => simp [startsWith]
    | cons c cs =>
      simp only [startsWith, Bool.and_eq_true, beq_iff_eq, ih, List.cons_append, List.cons.injEq]
      constructor
      · rintro ⟨h, r, hr⟩
        exact ⟨r, h.symm, hr⟩
      · rintro ⟨r, h, hr⟩
        exact ⟨h.symm, r, hr⟩

/-- Matching literal items is testing for the literal text at the head. -/
theorem matchItems_lits (p : Str) (rest : List Item) (s : Str) :
    matchItems (p.map Item.lit ++ rest) s =
      if startsWith p s then matchItems rest (s.drop p.length) else none := by
  induction p generalizing s with
  | nil => simp [startsWith]
  | cons a p ih =>
    cases s with
    | nil => simp [startsWith, matchItems]
    | cons c cs =>
      simp only [List.map_cons, List.cons_append, matchItems, ih, startsWith, List.length_cons,
        List.drop_succ_cons]
      by_cases h : c = a
      · subst h
        simpa using ih cs
      · have h2 : (a == c) = false := by simpa using fun e => h e.symm
        simp [h, h2]

/-- A text that starts with a fence starts with a character that is not
white space. -/
theorem not_space_of_startsWith_fence (c : Char) (cs : Str)
    (h : startsWith fence (c :: cs) = true) : isJsSpace c = false := by
  simp only [fence, String.toList, startsWith, Bool.and_eq_true, beq_iff_eq] at h
  rw [← h.1]
  decide
/-- Matching the closing fence alone. -/
theorem matchItems_fence (s : Str) :
    matchItems (fence.map Item.lit) s =
      if startsWith fence s then some ([], s.drop 3) else none := by
  have h := matchItems_lits fence [] s
  simpa [matchItems, fence] using h

/-- The pair of a closing fence found is a splitting of the text. -/
theorem closeFence_eq (s x r : Str) (h : closeFence s = some (x, r)) : s = x ++ fence ++ r := by
  induction s generalizing x with
  | nil => simp [closeFence] at h
  | cons c cs ih =>
    rw [closeFence] at h
    by_cases hs : startsWith fence (c :: cs) = true
    · rw [if_pos hs] at h
      obtain ⟨t, ht⟩ := (startsWith_iff _ _).1 hs
      simp only [Option.some.injEq, Prod.mk.injEq] at h
      rw [← h.1, ← h.2, ht]
      simp [fence]
    · rw [if_neg hs] at h
      cases hc : closeFence cs with
      | none => simp [hc] at h
      | some p =>
        obtain ⟨x2, r2⟩ := p
        simp only [hc, Option.some.injEq, Prod.mk.injEq] at h
        obtain ⟨h1, h2⟩ := h
        subst h1 h2
        rw [List.cons_append, List.cons_append, ← ih x2 hc]

/-- White space before a fence: the closing fence is found right after it. -/
theorem closeFence_of_space_then_fence (s : Str)
    (h : startsWith fence (s.dropWhile isJsSpace) = true) :
    closeFence s = some (s.takeWhile isJsSpace, (s.dropWhile isJsSpace).drop 3) := by
  induction s with
  | nil => simp [startsWith, fence] at h
  | cons c cs ih =>
    by_cases hc : isJsSpace c = true
    · have hn : startsWith fence (c :: cs) = false := by
        by_contra hcon
        have := not_space_of_startsWith_fence c cs (by simpa using hcon)
        simp [hc] at this
      simp only [List.dropWhile_cons, hc, if_true] at h
      simp [closeFence, hn, ih h, List.takeWhile_cons, List.dropWhile_cons, hc]
    · simp only [List.dropWhile_cons, hc, Bool.false_eq_true, if_false] at h
      simp [closeFence, h, List.takeWhile_cons, List.dropWhile_cons, hc]

/-- White space has no end after trimming. -/
theorem trimEnd_takeWhile (s : Str) : trimEnd (s.takeWhile isJsSpace) = [] := by
  induction s with
  | nil => rfl
  | cons c cs ih =>
    by_cases hc : isJsSpace c = true
    · simp [List.takeWhile_cons, hc, trimEnd, ih]
    · simp [List.takeWhile_cons, hc, trimEnd]

/-- A text that trims to nothing is white space only. -/
theorem dropWhile_of_trimEnd_nil (x : Str) (h : trimEnd x = []) :
    x.dropWhile isJsSpace = [] := by
  induction x with
  | nil => rfl
  | cons c cs ih =>
    rw [trimEnd] at h
    cases ht : trimEnd cs with
    | nil =>
      rw [ht] at h
      by_cases hc : isJsSpace c = true
      · simp [List.dropWhile_cons, hc, ih ht]
      · simp [hc] at h
    | cons d ds => simp [ht] at h

/-- Trimming keeps the head unless the whole text is white space. -/
theorem trimEnd_cons (c : Char) (x : Str) (h : ¬ (isJsSpace c = true ∧ trimEnd x = [])) :
    trimEnd (c :: x) = c :: trimEnd x := by
  rw [trimEnd]
  cases ht : trimEnd x with
  | nil =>
    have hc : isJsSpace c = false := by
      by_contra hcon
      exact h ⟨by simpa using hcon, ht⟩
    simp [hc]
  | cons d ds => rfl

/-- The trimmed text is a head of the text. -/
theorem trimEnd_append (x : Str) : ∃ t, x = trimEnd x ++ t := by
  induction x with
  | nil => exact ⟨[], rfl⟩
  | cons c cs ih =>
    obtain ⟨t, ht⟩ := ih
    by_cases h : isJsSpace c = true ∧ trimEnd cs = []
    · refine ⟨c :: cs, ?_⟩
      simp [trimEnd, h.1, h.2]
    · refine ⟨t, ?_⟩
      rw [trimEnd_cons c cs h, List.cons_append, ← ht]

/-- The closing part `\s*` and fence of the fence expressions: the white
space is passed and the fence must follow. -/
theorem matchItems_space_fence (s : Str) :
    matchItems (Item.star true isJsSpace :: fence.map Item.lit) s =
      if startsWith fence (s.dropWhile isJsSpace) then
        some ([], (s.dropWhile isJsSpace).drop 3)
      else none := by
  rw [matchItems]
  induction s with
  | nil =>
    rw [starLoop, matchItems_fence]
    rfl
  | cons c cs ih =>
    rw [starLoop]
    simp only [if_true]
    by_cases hc : isJsSpace c = true
    · have hn : startsWith fence (c :: cs) = false := by
        by_contra hcon
        have := not_space_of_startsWith_fence c cs (by simpa using hcon)
        simp [hc] at this
      rw [if_pos hc, ih, matchItems_fence, hn]
      simp only [List.dropWhile_cons, hc, if_true]
      by_cases hf : startsWith fence (cs.dropWhile isJsSpace) = true <;> simp [hf, firstOf]
    · rw [if_neg hc, matchItems_fence]
      simp [List.dropWhile_cons, hc, firstOf]

/-- The end of the capture group followed by the closing part. -/
theorem matchItems_mark_space_fence (s : Str) :
    matchItems (Item.mark :: Item.star true isJsSpace :: fence.map Item.lit) s =
      if startsWith fence (s.dropWhile isJsSpace) then
        some ([s], (s.dropWhile isJsSpace).drop 3)
      else none := by
  rw [matchItems, matchItems_space_fence]
  by_cases hf : startsWith fence (s.dropWhile isJsSpace) = true <;> simp [hf]

/-- The lazy group `[\s\S]*?` followed by the closing part stops at the end of
the trimmed text before the first fence. -/
theorem starLoop_lazy_group (s : Str) :
    starLoop false anyChar
        (matchItems (Item.mark :: Item.star true isJsSpace :: fence.map Item.lit)) s =
      match closeFence s with
      | none => none
      | some (x, r) => some ([s.drop (trimEnd x).length], r) := by
  induction s with
  | nil =>
    rw [starLoop, matchItems_mark_space_fence]
    rfl
  | cons c cs ih =>
    rw [starLoop]
    simp only [Bool.false_eq_true, if_false, anyChar, if_true]
    rw [matchItems_mark_space_fence]
    by_cases hf : startsWith fence ((c :: cs).dropWhile isJsSpace) = true
    · rw [if_pos hf, closeFence_of_space_then_fence _ hf]
      simp [firstOf, trimEnd_takeWhile]
    · rw [if_neg hf, ih]
      have hn : startsWith fence (c :: cs) = false := by
        by_contra hcon
        have hsp := not_space_of_startsWith_fence c cs (by simpa using hcon)
        apply hf
        simpa [List.dropWhile_cons, hsp] using hcon
      rw [closeFence, hn]
      cases hcl : closeFence cs with
      | none => simp [firstOf]
      | some p =>
        obtain ⟨x, r⟩ := p
        have hkeep : ¬ (isJsSpace c = true ∧ trimEnd x = []) := by
          rintro ⟨hc, hx⟩
          apply hf
          have hsplit := closeFence_eq cs x r hcl
          have hdrop := dropWhile_of_trimEnd_nil x hx
          have hall : ∀ y ∈ x, isJsSpace y = true := by
            intro y hy
            by_contra hny
            have := List.dropWhile_eq_nil_iff.1 hdrop y hy
            exact hny this
          rw [List.dropWhile_cons, if_pos hc, hsplit, List.append_assoc,
            List.dropWhile_append_of_pos hall]
          simp [fence, List.dropWhile_cons, startsWith]
        simp [firstOf, trimEnd_cons c x hkeep]

/-- The capture group with its borders, followed by the closing part. -/
theorem matchItems_group (s : Str) :
    matchItems (Item.mark :: Item.star false anyChar :: Item.mark ::
        Item.star true isJsSpace :: fence.map Item.lit) s =
      match closeFence s with
      | none => none
      | some (x, r) => some ([s, s.drop (trimEnd x).length], r) := by
  rw [matchItems, matchItems, starLoop_lazy_group]
  cases closeFence s with
  | none => rfl
  | some p => rfl

/-- Leading white space does not change where the first fence is. -/
theorem closeFence_dropWhile (s : Str) :
    closeFence (s.dropWhile isJsSpace) =
      match closeFence s with
      | none => none
      | some (x, r) => some (x.dropWhile isJsSpace, r) := by
  induction s with
  | nil => rfl
  | cons c cs ih =>
    by_cases hc : isJsSpace c = true
    · have hn : startsWith fence (c :: cs) = false := by
        by_contra hcon
        have := not_space_of_startsWith_fence c cs (by simpa using hcon)
        simp [hc] at this
      rw [List.dropWhile_cons, if_pos hc, ih, closeFence, hn]
      cases closeFence cs with
      | none => rfl
      | some p => simp [List.dropWhile_cons, hc]
    · rw [List.dropWhile_cons, if_neg hc, closeFence]
      by_cases hs : startsWith fence (c :: cs) = true
      · simp [hs]
      · simp only [hs, Bool.false_eq_true, if_false]
        cases closeFence cs with
        | none => rfl
        | some p => simp [List.dropWhile_cons, hc]

/-- The shared part of the fence expressions: leading white space is passed,
then the group runs to the end of the trimmed text before the first fence. -/
theorem matchItems_fenceTail (s : Str) :
    matchItems fenceTail s =
      match closeFence s with
      | none => none
      | some (x, r) =>
        some ([s.dropWhile isJsSpace,
               (s.dropWhile isJsSpace).drop (trimSpace x).length], r) := by
  have hk : ∀ t, matchItems (Item.mark :: Item.star false anyChar :: Item.mark ::
      Item.star true isJsSpace :: fence.map Item.lit) (t.dropWhile isJsSpace) =
      match closeFence t with
      | none => none
      | some (x, r) =>
        some ([t.dropWhile isJsSpace,
               (t.dropWhile isJsSpace).drop (trimSpace x).length], r) := by
    intro t
    rw [matchItems_group, closeFence_dropWhile]
    cases closeFence t with
    | none => rfl
    | some p => rfl
  have hshape : fenceTail = Item.star true isJsSpace :: (Item.mark :: Item.star false anyChar ::
      Item.mark :: Item.star true isJsSpace :: fence.map Item.lit) := rfl
  rw [hshape, matchItems, ← hk]
  induction s with
  | nil => rfl
  | cons c cs ih =>
    rw [starLoop]
    simp only [if_true]
    by_cases hc : isJsSpace c = true
    · rw [if_pos hc, ih, List.dropWhile_cons, if_pos hc]
      cases hm : matchItems (Item.mark :: Item.star false anyChar :: Item.mark ::
          Item.star true isJsSpace :: fence.map Item.lit) (cs.dropWhile isJsSpace) with
      | some y => rfl
      | none =>
        rw [firstOf, matchItems_group]
        have hn : startsWith fence (c :: cs) = false := by
          by_contra hcon
          have := not_space_of_startsWith_fence c cs (by simpa using hcon)
          simp [hc] at this
        rw [matchItems_group, closeFence_dropWhile] at hm
        rw [closeFence, hn]
        cases hcl : closeFence cs with
        | none => rfl
        | some p => simp [hcl] at hm
    · rw [if_neg hc, List.dropWhile_cons, if_neg hc]
      rfl

/-- The text consumed up to a suffix is the part before the suffix. -/
theorem consumed_append (g rest : Str) : consumed (g ++ rest) rest = g := by
  simp [consumed]

/-- The capture of the fence expressions is the trimmed text before the first
fence. -/
theorem firstGroup_fenceTail (s x r : Str) (h : closeFence s = some (x, r)) :
    firstGroup [s.dropWhile isJsSpace, (s.dropWhile isJsSpace).drop (trimSpace x).length] =
      trimSpace x := by
  have hd : closeFence (s.dropWhile isJsSpace) = some (x.dropWhile isJsSpace, r) := by
    rw [closeFence_dropWhile, h]
  obtain ⟨t, ht⟩ := trimEnd_append (x.dropWhile isJsSpace)
  have hs : s.dropWhile isJsSpace = trimSpace x ++ (t ++ fence ++ r) := by
    rw [closeFence_eq _ _ _ hd]
    conv_lhs => rw [ht]
    simp [trimSpace]
  rw [firstGroup, hs, List.drop_left, consumed_append]

/-- Without a fence in a text there is none in what follows inside it. -/
theorem closeFence_drop_none (s : Str) (k : Nat) (h : closeFence s = none) :
    closeFence (s.drop k) = none := by
  induction k generalizing s with
  | zero => simpa using h
  | succ k ih =>
    cases s with
    | nil => simpa using h
    | cons c cs =>
      rw [List.drop_succ_cons]
      apply ih
      rw [closeFence] at h
      by_cases hs : startsWith fence (c :: cs) = true
      · simp [hs] at h
      · simp only [hs, Bool.false_eq_true, if_false] at h
        cases hc : closeFence cs with
        | none => rfl
        | some p => simp [hc] at h

/-- An expression that matches at no position is not found. -/
theorem searchFrom_none (re : List Item) (sk t : Str)
    (h : ∀ k, matchItems re (t.drop k) = none) : searchFrom re sk t = none := by
  induction t generalizing sk with
  | nil =>
    have h0 := h 0
    simp only [List.drop_zero] at h0
    simp [searchFrom, h0]
  | cons c cs ih =>
    have h0 := h 0
    simp only [List.drop_zero] at h0
    rw [searchFrom, h0]
    exact ih (c :: sk) (fun k => by simpa using h (k + 1))

/-- A fence expression, opening fence then shared part, matched at the head
of a text. -/
theorem matchItems_fenceRegex (opener t : Str) :
    matchItems (opener.map Item.lit ++ fenceTail) t =
      if startsWith opener t then
        match closeFence (t.drop opener.length) with
        | none => none
        | some (x, r) =>
          some ([(t.drop opener.length).dropWhile isJsSpace,
                 ((t.drop opener.length).dropWhile isJsSpace).drop (trimSpace x).length], r)
      else none := by
  rw [matchItems_lits, matchItems_fenceTail]

/-- The group captured by the leftmost match of a fence expression is the
whitespace-trimmed content of the first fenced block with that opening
fence. -/
theorem searchFrom_fenceRegex (opener sk t : Str) :
    (searchFrom (opener.map Item.lit ++ fenceTail) sk t).map (fun m => m.group1) =
      fencedContent opener t := by
  induction t generalizing sk with
  | nil =>
    rw [searchFrom, matchItems_fenceRegex, fencedContent, afterFirst]
    by_cases hs : startsWith opener [] = true
    · simp [hs, closeFence]
    · simp [hs]
  | cons c cs ih =>
    rw [searchFrom, matchItems_fenceRegex, fencedContent, afterFirst]
    by_cases hs : startsWith opener (c :: cs) = true
    · simp only [hs, if_true]
      cases hcl : closeFence ((c :: cs).drop opener.length) with
      | some p =>
        obtain ⟨x, r⟩ := p
        simp only [Option.map_some', firstGroup_fenceTail _ x r hcl]
      | none =>
        simp only
        rw [searchFrom_none]
        · rfl
        · intro k
          rw [matchItems_fenceRegex]
          by_cases hk : startsWith opener (cs.drop k) = true
          · have hdrop : (cs.drop k).drop opener.length =
                ((c :: cs).drop opener.length).drop (k + 1) := by
              rw [List.drop_drop, List.drop_drop]
              have : opener.length + (k + 1) = (k + opener.length) + 1 := by omega
              rw [this, List.drop_succ_cons]
            rw [if_pos hk, hdrop, closeFence_drop_none _ _ hcl]
          · rw [if_neg hk]
    · simp only [hs, Bool.false_eq_true, if_false]
      rw [ih, fencedContent]

/-- What parseJSON takes for `jsonMatch[1]` is the content of the fenced block
of the response, or the whole response when there is no fenced block. -/
theorem jsonMatchGroup_eq (text : Str) :
    jsonMatchGroup text = (fencedBlock text).getD text := by
  have h1 := searchFrom_fenceRegex "```json".toList [] text
  have h2 := searchFrom_fenceRegex fence [] text
  have e1 : fenceJsonRegex = "```json".toList.map Item.lit ++ fenceTail := rfl
  have e2 : fencePlainRegex = fence.map Item.lit ++ fenceTail := rfl
  rw [jsonMatchGroup, search, search, e1, e2, fencedBlock, ← h1, ← h2]
  cases searchFrom ("```json".toList.map Item.lit ++ fenceTail) [] text with
  | some m => rfl
  | none =>
    cases searchFrom (fence.map Item.lit ++ fenceTail) [] text with
    | some m => rfl
    | none => rfl

/-- The text parseJSON decodes: the content of the fenced block when there is
one and it is not empty, otherwise the whole response. -/
theorem decodedText_eq (text : Str) :
    decodedText text =
      match fencedBlock text with
      | some (c :: cs) => c :: cs
      | _ => text := by
  rw [decodedText, jsonMatchGroup_eq]
  cases hf : fencedBlock text with
  | none =>
    simp only [Option.getD_none]
    cases text <;> rfl
  | some g =>
    cases g with
    | nil => rfl
    | cons c cs => rfl

/-- C9 (amended): parseJSON always returns, a decoded value or the object of
its catch block.  When the text it decodes (the content of the fenced block
when that content is not empty, otherwise the whole response) is not valid,
the object returned has the error text of the code and the whole response as
raw. -/
theorem parseJSON_failure_returns_sentinel {V : Type} (JSONparse : Str → Option V)
    (text : Str) :
    ((∃ v, parseJSON JSONparse text = Decoded.value v) ∨
      parseJSON JSONparse text = Decoded.failure "JSON解析失败".toList text) ∧
    (∀ c cs, fencedBlock text = some (c :: cs) → JSONparse (c :: cs) = none →
      parseJSON JSONparse text = Decoded.failure "JSON解析失败".toList text) ∧
    (fencedBlock text = some [] → JSONparse text = none →
      parseJSON JSONparse text = Decoded.failure "JSON解析失败".toList text) ∧
    (fencedBlock text = none → JSONparse text = none →
      parseJSON JSONparse text = Decoded.failure "JSON解析失败".toList text) := by
  refine ⟨?_, ?_, ?_, ?_⟩
  · rw [parseJSON]
    cases JSONparse (decodedText text) with
    | some v => exact Or.inl ⟨v, rfl⟩
    | none => exact Or.inr rfl
  · intro c cs hf hp
    have hd : decodedText text = c :: cs := by rw [decodedText_eq, hf]
    rw [parseJSON, hd, hp]
  · intro hf hp
    have hd : decodedText text = text := by rw [decodedText_eq, hf]
    rw [parseJSON, hd, hp]
  · intro hf hp
    have hd : decodedText text = text := by rw [decodedText_eq, hf]
    rw [parseJSON, hd, hp]

/-- C10 (amended): when the trimmed content of the first fenced block of the
response is valid, parseJSON returns the value of that content; a block after
the first is not looked at.  The first fenced block runs from the first json
fence to the next fence or, when there is no such block, from the first plain
fence to the next fence, and then a tag other than json after the opening
fence is part of the content.  When the response holds no fenced block and
the whole response is valid, parseJSON returns the value of the whole
response.  The empty text is not valid for the built-in decoder. -/
theorem parseJSON_decodes_fenced_or_whole {V : Type} (JSONparse : Str → Option V)
    (hempty : JSONparse [] = none) (text : Str) (v : V) :
    (∀ content, fencedBlock text = some content → JSONparse content = some v →
      parseJSON JSONparse text = Decoded.value v) ∧
    (fencedBlock text = none → JSONparse text = some v →
      parseJSON JSONparse text = Decoded.value v) := by
  refine ⟨?_, ?_⟩
  · intro content hf hp
    cases content with
    | nil => rw [hempty] at hp; cases hp
    | cons c cs =>
      have hd : decodedText text = c :: cs := by rw [decodedText_eq, hf]
      rw [parseJSON, hd, hp]
  · intro hf hp
    have hd : decodedText text = text := by rw [decodedText_eq, hf]
    rw [parseJSON, hd, hp]

/-- The counts after the catch block of a test case. -/
theorem recordFault_counts (results : Results) (tc : TestCase) (e : Str) :
    (recordFault results tc e).total = results.total ∧
    (recordFault results tc e).passed = results.passed ∧
    (recordFault results tc e).failed = results.failed + 1 ∧
    (recordFault results tc e).details.length = results.details.length + 1 := by
  simp [recordFault]

/-- The counts after the detail of a test case is pushed. -/
theorem recordDetail_counts (results : Results) (detail : Detail) :
    (recordDetail results detail).total = results.total ∧
    (recordDetail results detail).passed + (recordDetail results detail).failed =
      results.passed + results.failed + 1 ∧
    (recordDetail results detail).details.length = results.details.length + 1 := by
  cases hp : detail.passed <;> simp [recordDetail, hp] <;> omega

/-- What the loop of runTests keeps whatever the page does: the total is not
touched, every detail pushed comes with one count, and every test case pushes
at least one detail. -/
theorem runCases_counts {σ : Type} (b : Browser σ) (cases : List TestCase) (results : Results)
    (w : World σ) :
    (runCases b cases results w).1.total = results.total ∧
    (runCases b cases results w).1.passed + (runCases b cases results w).1.failed +
        results.details.length =
      results.passed + results.failed + (runCases b cases results w).1.details.length ∧
    results.details.length + cases.length ≤ (runCases b cases results w).1.details.length := by
  induction cases generalizing results w with
  | nil => simp [runCases]
  | cons tc rest ih =>
    rw [runCases]
    rcases hx : executeTestCase b tc w with ⟨e | detail, w1⟩
    · simp only
      obtain ⟨h1, h2, h3⟩ := ih (recordFault results tc e) w1
      obtain ⟨f1, f2, f3, f4⟩ := recordFault_counts results tc e
      rw [f1] at h1
      rw [f2, f3, f4] at h2
      rw [f4] at h3
      refine ⟨h1, ?_, ?_⟩
      · omega
      · simp only [List.length_cons]
        omega
    · simp only
      obtain ⟨d1, d2, d3⟩ := recordDetail_counts results detail
      rcases hs : perform b (Call.screenshot (screenshotPath tc)) w1 with ⟨e | ok, w2⟩
      · simp only
        obtain ⟨h1, h2, h3⟩ := ih (recordFault (recordDetail results detail) tc e) w2
        obtain ⟨f1, f2, f3, f4⟩ := recordFault_counts (recordDetail results detail) tc e
        rw [f1, d1] at h1
        rw [f2, f3, f4, d3] at h2
        rw [f4, d3] at h3
        refine ⟨h1, ?_, ?_⟩
        · omega
        · simp only [List.length_cons]
          omega
      · simp only
        obtain ⟨h1, h2, h3⟩ := ih (recordScreenshot (recordDetail results detail) tc) w2
        have s1 : (recordScreenshot (recordDetail results detail) tc).total = results.total := d1
        have s2 : (recordScreenshot (recordDetail results detail) tc).passed +
            (recordScreenshot (recordDetail results detail) tc).failed =
            results.passed + results.failed + 1 := d2
        have s3 : (recordScreenshot (recordDetail results detail) tc).details.length =
            results.details.length + 1 := d3
        rw [s1] at h1
        rw [s3] at h2 h3
        refine ⟨h1, ?_, ?_⟩
        · omega
        · simp only [List.length_cons]
          omega

/-- What holds of every result runTests returns: total is the number of test
cases, the two counts add up to the number of details, and there are at least
as many details as test cases. -/
theorem runTests_counts {σ : Type} (b : Browser σ) (config : Config) (cases : List TestCase)
    (w w' : World σ) (r : Results) (h : runTests b config cases w = (Except.ok r, w')) :
    r.total = cases.length ∧ r.passed + r.failed = r.details.length ∧
    cases.length ≤ r.details.length := by
  unfold runTests at h
  split at h
  · cases h
  · split at h
    · cases h
    · split at h
      · split at h <;> cases h
      · rename_i w3 _
        obtain ⟨h1, h2, h3⟩ := runCases_counts b cases
          { total := cases.length, passed := 0, failed := 0, details := [], screenshots := [] } w3
        simp only at h
        rcases hrun : runCases b cases
          { total := cases.length, passed := 0, failed := 0, details := [], screenshots := [] }
          w3 with ⟨final, w4⟩
        rw [hrun] at h h1 h2 h3
        simp only at h
        split at h
        · cases h
        · have hr : final = r := by
            simp only [Prod.mk.injEq, Except.ok.injEq] at h
            exact h.1
          subst hr
          simp only [List.length_nil, Nat.add_zero, Nat.zero_add] at h1 h2 h3
          exact ⟨h1, h2, h3⟩

/-- C13 (amended): the text of generate is made of three parts fixed by the
configuration and the test cases, with the two clock readings of the call
between them; nothing else of the call reaches the text. -/
theorem generate_text_and_clock (config : Config) (testCases : List TestCase) :
    ∃ a b c : Str, ∀ localeNow isoNow : Str,
      generate localeNow isoNow config testCases = a ++ localeNow ++ b ++ isoNow ++ c := by
  refine ⟨"// 自动生成的测试脚本\n// 页面: ".toList ++ config.tabName ++ "\n// 生成时间: ".toList,
    ?_, "'\n\x7d;\n".toList, ?_⟩
  · exact "\n// 配置: ".toList ++ stringifyConfig config ++
      "\n\nconst \x7b test, expect \x7d = require('@playwright/test');\n\ntest.describe('".toList ++
      config.tabName ++
      " 自动化测试', () => \x7b\n\n  test.beforeEach(async (\x7b page \x7d) => \x7b\n    // 登录\n    await page.goto('".toList ++
      config.url ++
      "');\n    await page.fill('input[type=\"text\"]', '".toList ++ config.username ++
      "');\n    ".toList ++ passwordLine config ++
      "\n    await page.click('button:has-text(\"登\")');\n    await page.waitForURL(/.*#\\/.*/);\n\n    // 进入目标页面\n    await page.click('a:has-text(\"".toList ++
      config.tabName ++
      "\")');\n    await page.waitForTimeout(1000);\n  \x7d);\n\n".toList ++
      generateTestCases testCases ++
      "\n\n\x7d);\n\n// 测试配置\nmodule.exports = \x7b\n  testConfig: ".toList ++
      stringifyConfig config ++ ",\n  generatedAt: '".toList
  · intro localeNow isoNow
    simp only [generate, scriptHead, scriptTail, List.append_assoc]

/-- A call other than close leaves the number of closes as it was. -/
theorem closeCount_perform {σ : Type} (b : Browser σ) (c : Call) (w : World σ)
    (h : c ≠ Call.close) : closeCount (perform b c w).2.trace = closeCount w.trace := by
  simp only [perform, closeCount, List.count_append, List.count_singleton]
  have : (c == Call.close) = false := by simpa using h
  simp [this]

/-- Closing adds one to the number of closes. -/
theorem closeCount_perform_close {σ : Type} (b : Browser σ) (w : World σ) :
    closeCount (perform b Call.close w).2.trace = closeCount w.trace + 1 := by
  simp [perform, closeCount, List.count_append]

/-- A sequence of calls without close leaves the number of closes as it
was. -/
theorem closeCount_performAll {σ : Type} (b : Browser σ) (cs : List Call) (w : World σ)
    (h : Call.close ∉ cs) : closeCount (performAll b cs w).2.trace = closeCount w.trace := by
  induction cs generalizing w with
  | nil => rfl
  | cons c rest ih =>
    have hc : c ≠ Call.close := fun e => h (e ▸ List.mem_cons_self _ _)
    have hrest : Call.close ∉ rest := fun e => h (List.mem_cons_of_mem _ e)
    rw [performAll]
    rcases hp : perform b c w with ⟨e | ok, w1⟩
    · have := closeCount_perform b c w hc
      rw [hp] at this
      exact this
    · have := closeCount_perform b c w hc
      rw [hp] at this
      simp only
      rw [ih w1 hrest, this]

/-- The call of a step is never close. -/
theorem stepCall_ne_close (step : Step) (c : Call) (h : stepCall step = some c) :
    c ≠ Call.close := by
  unfold stepCall at h
  split at h
  · cases h; simp
  · split at h
    · cases h; simp
    · split at h
      · cases h; simp
      · cases h

/-- The step loop does not close the session. -/
theorem closeCount_executeSteps {σ : Type} (b : Browser σ) (steps : List Step) (w : World σ) :
    closeCount (executeSteps b steps w).2.trace = closeCount w.trace := by
  induction steps generalizing w with
  | nil => rfl
  | cons step rest ih =>
    rw [executeSteps]
    cases hs : stepCall step with
    | none =>
      simp only
      rcases hp : perform b (Call.waitForTimeout 500) w with ⟨e | ok, w2⟩
      · have := closeCount_perform b (Call.waitForTimeout 500) w (by simp)
        rw [hp] at this
        exact this
      · have := closeCount_perform b (Call.waitForTimeout 500) w (by simp)
        rw [hp] at this
        simp only
        rw [ih w2, this]
    | some c =>
      have hc := stepCall_ne_close step c hs
      simp only
      rcases hp : perform b c w with ⟨e | ok, w1⟩
      · have := closeCount_perform b c w hc
        rw [hp] at this
        exact this
      · have h1 := closeCount_perform b c w hc
        rw [hp] at h1
        simp only
        rcases hp2 : perform b (Call.waitForTimeout 500) w1 with ⟨e | ok2, w2⟩
        · have := closeCount_perform b (Call.waitForTimeout 500) w1 (by simp)
          rw [hp2] at this
          simp only
          rw [this, h1]
        · have := closeCount_perform b (Call.waitForTimeout 500) w1 (by simp)
          rw [hp2] at this
          simp only
          rw [ih w2, this, h1]

/-- Executing a test case does not close the session. -/
theorem closeCount_executeTestCase {σ : Type} (b : Browser σ) (tc : TestCase) (w : World σ) :
    closeCount (executeTestCase b tc w).2.trace = closeCount w.trace := by
  rw [executeTestCase]
  have hs := closeCount_executeSteps b tc.steps w
  rcases hx : executeSteps b tc.steps w with ⟨e | _, w1⟩
  · rw [hx] at hs
    simp only
    have hp := closeCount_perform b (Call.evaluate tc.expectedResult) w1 (by simp)
    rcases he : perform b (Call.evaluate tc.expectedResult) w1 with ⟨e | r, w2⟩
    · rw [he] at hp
      simp only
      rw [hp, hs]
    · rw [he] at hp
      simp only
      rw [hp, hs]
  · rw [hx] at hs
    exact hs

/-- The loop over the test cases does not close the session. -/
theorem closeCount_runCases {σ : Type} (b : Browser σ) (cases : List TestCase)
    (results : Results) (w : World σ) :
    closeCount (runCases b cases results w).2.trace = closeCount w.trace := by
  induction cases generalizing results w with
  | nil => rfl
  | cons tc rest ih =>
    rw [runCases]
    have hx := closeCount_executeTestCase b tc w
    rcases he : executeTestCase b tc w with ⟨e | detail, w1⟩
    · rw [he] at hx
      simp only
      rw [ih, hx]
    · rw [he] at hx
      simp only
      have hp := closeCount_perform b (Call.screenshot (screenshotPath tc)) w1 (by simp)
      rcases hs : perform b (Call.screenshot (screenshotPath tc)) w1 with ⟨e | ok, w2⟩
      · rw [hs] at hp
        simp only
        rw [ih, hp, hx]
      · rw [hs] at hp
        simp only
        rw [ih, hp, hx]

/-- The login calls do not close the session. -/
theorem close_not_mem_loginCalls (config : Config) : Call.close ∉ loginCalls config := by
  unfold loginCalls
  cases config.password with
  | none => simp
  | some p =>
    cases p with
    | nil => simp
    | cons c cs => simp

/-- Once the page is open, every way out of runTests closes the session
exactly once: the login calls and the loop never close it and the finally
block closes it once. -/
theorem runTests_closes_once {σ : Type} (b : Browser σ) (config : Config)
    (cases : List TestCase) (w w1 w2 : World σ) (x y : Bool)
    (hlaunch : perform b Call.launch w = (Except.ok x, w1))
    (hpage : perform b Call.newPage w1 = (Except.ok y, w2)) :
    closeCount (runTests b config cases w).2.trace = closeCount w.trace + 1 := by
  have h1 := closeCount_perform b Call.launch w (by simp)
  rw [hlaunch] at h1
  have h2 := closeCount_perform b Call.newPage w1 (by simp)
  rw [hpage] at h2
  simp only at h1 h2
  have h3 := closeCount_performAll b (loginCalls config) w2 (close_not_mem_loginCalls config)
  rw [runTests, hlaunch]
  simp only [hpage]
  rcases hl : performAll b (loginCalls config) w2 with ⟨e | _, w3⟩
  · rw [hl] at h3
    simp only at h3 ⊢
    have h4 := closeCount_runCases b cases
      { total := cases.length, passed := 0, failed := 0, details := [], screenshots := [] } w3
    rcases hr : runCases b cases
      { total := cases.length, passed := 0, failed := 0, details := [], screenshots := [] }
      w3 with ⟨final, w4⟩
    rw [hr] at h4
    simp only at h4 ⊢
    have h5 := closeCount_perform_close b w4
    rcases hc : perform b Call.close w4 with ⟨e | ok, w5⟩
    · rw [hc] at h5
      simp only at h5 ⊢
      omega
    · rw [hc] at h5
      simp only at h5 ⊢
      omega
  · rw [hl] at h3
    simp only at h3 ⊢
    have h5 := closeCount_perform_close b w3
    rcases hc : perform b Call.close w3 with ⟨e' | ok, w4⟩
    · rw [hc] at h5
      simp only at h5 ⊢
      omega
    · rw [hc] at h5
      simp only at h5 ⊢
      omega

/-- C12 (amended): create fails with the unsupported-provider error exactly
when the lower-cased provider is not one of the six labels.  For deepseek,
gemini, qwen and glm it returns the adapter of that class, with the defaults
of the class; for claude and openai it returns the adapter of that class with
its SDK client, unless the client constructor of the SDK raises, and then it
fails with that error.  On every adapter it returns, each of the three
capabilities is a method of the adapter's own class. -/
theorem create_dispatches_on_provider (sdk : Sdk) (toLowerCase : Str → Str) (provider : Str)
    (config : ProviderConfig) :
    ((∃ message, create sdk toLowerCase provider config =
        Except.error (CreateError.unsupportedProvider message)) ↔
      toLowerCase provider ∉ supportedIds) ∧
    (toLowerCase provider ∉ supportedIds →
      create sdk toLowerCase provider config =
        Except.error (CreateError.unsupportedProvider ("不支持的AI提供商: ".toList ++ provider))) ∧
    (toLowerCase provider = "deepseek".toList →
      create sdk toLowerCase provider config =
        Except.ok
          { vendor := Vendor.deepseek, config := config, apiKey := config.apiKey
            baseURL := some (orDefault config.baseURL "https://api.deepseek.com/v1".toList)
            model := orDefault config.model "deepseek-chat".toList
            client := Client.none }) ∧
    (toLowerCase provider = "gemini".toList →
      create sdk toLowerCase provider config =
        Except.ok
          { vendor := Vendor.gemini, config := config, apiKey := config.apiKey
            baseURL := some
              (orDefault config.baseURL "https://generativelanguage.googleapis.com/v1beta".toList)
            model := orDefault config.model "gemini-pro".toList
            client := Client.none }) ∧
    (toLowerCase provider = "qwen".toList →
      create sdk toLowerCase provider config =
        Except.ok
          { vendor := Vendor.qwen, config := config, apiKey := config.apiKey
            baseURL := some (orDefault config.baseURL "https://dashscope.aliyuncs.com/api/v1".toList)
            model := orDefault config.model "qwen-max".toList
            client := Client.none }) ∧
    (toLowerCase provider = "glm".toList →
      create sdk toLowerCase provider config =
        Except.ok
          { vendor := Vendor.glm, config := config, apiKey := config.apiKey
            baseURL := some (orDefault config.baseURL "https://open.bigmodel.cn/api/paas/v4".toList)
            model := orDefault config.model "glm-4".toList
            client := Client.none }) ∧
    (toLowerCase provider = "claude".toList →
      create sdk toLowerCase provider config =
        match sdk.anthropicFault config.apiKey with
        | some message => Except.error (CreateError.sdk message)
        | none =>
          Except.ok
            { vendor := Vendor.claude, config := config, apiKey := config.apiKey
              baseURL := config.baseURL
              model := orDefault config.model "claude-sonnet-4-20250514".toList
              client := Client.anthropic config.apiKey }) ∧
    (toLowerCase provider = "openai".toList →
      create sdk toLowerCase provider config =
        match sdk.openaiFault config.apiKey
            (orDefault config.baseURL "https://api.openai.com/v1".toList) with
        | some message => Except.error (CreateError.sdk message)
        | none =>
          Except.ok
            { vendor := Vendor.openai, config := config, apiKey := config.apiKey
              baseURL := config.baseURL
              model := orDefault config.model "gpt-4-turbo".toList
              client :=
                Client.openai config.apiKey
                  (orDefault config.baseURL "https://api.openai.com/v1".toList) }) ∧
    (∀ s, create sdk toLowerCase provider config = Except.ok s →
      ∀ c ∈ capabilities, s.method c = some MethodOwner.adapterClass) := by
  have hunsupported : toLowerCase provider ∉ supportedIds →
      create sdk toLowerCase provider config =
        Except.error
          (CreateError.unsupportedProvider ("不支持的AI提供商: ".toList ++ provider)) := by
    intro h
    simp only [supportedIds, Vendor.id, List.mem_cons, List.mem_singleton, not_or,
      List.not_mem_nil, or_false] at h
    obtain ⟨h1, h2, h3, h4, h5, h6⟩ := h
    rw [create, if_neg h1, if_neg h2, if_neg h3, if_neg h4, if_neg h5, if_neg h6]
  have hconstruct : ∀ v : Vendor, toLowerCase provider = v.id →
      create sdk toLowerCase provider config = construct sdk v config := by
    intro v hv
    cases v <;> simp [create, hv, Vendor.id]
  have hnot : ∀ v : Vendor, ∀ message,
      construct sdk v config ≠ Except.error (CreateError.unsupportedProvider message) := by
    intro v message
    cases v <;> simp only [construct] <;> (try split) <;> simp
  refine ⟨⟨?_, fun h => ⟨_, hunsupported h⟩⟩, hunsupported, ?_, ?_, ?_, ?_, ?_, ?_, ?_⟩
  · rintro ⟨message, he⟩ hmem
    simp only [supportedIds, List.mem_cons, List.mem_singleton, List.not_mem_nil, or_false]
      at hmem
    rcases hmem with h | h | h | h | h | h <;>
      · rw [hconstruct _ h] at he
        exact hnot _ _ he
  · intro h
    rw [hconstruct Vendor.deepseek h, construct]
  · intro h
    rw [hconstruct Vendor.gemini h, construct]
  · intro h
    rw [hconstruct Vendor.qwen h, construct]
  · intro h
    rw [hconstruct Vendor.glm h, construct]
  · intro h
    rw [hconstruct Vendor.claude h, construct]
  · intro h
    rw [hconstruct Vendor.openai h, construct]
  · intro s _ c hc
    simp only [capabilities, List.mem_cons, List.mem_singleton, List.not_mem_nil, or_false]
      at hc
    unfold Service.method
    cases s.vendor <;> rcases hc with h | h | h <;> subst h <;> simp [ownMethods]

/-- The loop over a concatenation is the loop over the second part run from
where the loop over the first part ends. -/
theorem runCases_append {σ : Type} (b : Browser σ) (pre post : List TestCase)
    (results : Results) (w : World σ) :
    runCases b (pre ++ post) results w =
      runCases b post (runCases b pre results w).1 (runCases b pre results w).2 := by
  induction pre generalizing results w with
  | nil => rfl
  | cons tc rest ih =>
    rw [List.cons_append, runCases, runCases]
    rcases executeTestCase b tc w with ⟨e | detail, w1⟩
    · exact ih _ _
    · simp only
      rcases perform b (Call.screenshot (screenshotPath tc)) w1 with ⟨e | ok, w2⟩
      · exact ih _ _
      · exact ih _ _

/-- The detail executeTestCase returns carries the id of its test case. -/
theorem executeTestCase_id {σ : Type} (b : Browser σ) (tc : TestCase) (w w1 : World σ)
    (detail : Detail) (h : executeTestCase b tc w = (Except.ok detail, w1)) :
    detail.testCaseId = tc.id := by
  unfold executeTestCase at h
  split at h
  · cases h
  · split at h
    · cases h
    · simp only [Prod.mk.injEq, Except.ok.injEq] at h
      rw [← h.1]

/-- The loop only appends details, at least one for each test case and in the
order of the test cases. -/
theorem runCases_details {σ : Type} (b : Browser σ) (cases : List TestCase)
    (results : Results) (w : World σ) :
    ∃ extra, (runCases b cases results w).1.details = results.details ++ extra ∧
      (cases.map (fun tc => tc.id)).Sublist (extra.map (fun d => d.testCaseId)) := by
  induction cases generalizing results w with
  | nil => exact ⟨[], by simp [runCases], List.Sublist.refl _⟩
  | cons tc rest ih =>
    rw [runCases]
    rcases hx : executeTestCase b tc w with ⟨e | detail, w1⟩
    · obtain ⟨extra, h1, h2⟩ := ih (recordFault results tc e) w1
      refine ⟨faultEntry tc e :: extra, ?_, ?_⟩
      · rw [h1]
        simp [recordFault, faultEntry]
      · simpa [faultEntry] using h2.cons₂ tc.id
    · have hid := executeTestCase_id b tc w w1 detail hx
      simp only
      rcases perform b (Call.screenshot (screenshotPath tc)) w1 with ⟨e | ok, w2⟩
      · obtain ⟨extra, h1, h2⟩ := ih (recordFault (recordDetail results detail) tc e) w2
        refine ⟨detail :: faultEntry tc e :: extra, ?_, ?_⟩
        · rw [h1]
          simp [recordFault, recordDetail, faultEntry]
        · simpa [faultEntry, hid] using (h2.cons (tc.id)).cons₂ tc.id
      · obtain ⟨extra, h1, h2⟩ := ih (recordScreenshot (recordDetail results detail) tc) w2
        refine ⟨detail :: extra, ?_, ?_⟩
        · rw [h1]
          simp [recordScreenshot, recordDetail]
        · simpa [hid] using h2.cons₂ tc.id

/-- The details present before the loop are present after it. -/
theorem mem_details_runCases {σ : Type} (b : Browser σ) (cases : List TestCase)
    (results : Results) (w : World σ) (d : Detail) (h : d ∈ results.details) :
    d ∈ (runCases b cases results w).1.details := by
  obtain ⟨extra, h1, _⟩ := runCases_details b cases results w
  rw [h1]
  exact List.mem_append_left _ h

/-- A test case whose processing faults leaves the entry of the catch block
in the details. -/
theorem faultEntry_mem_of_caseFault {σ : Type} (b : Browser σ) (tc : TestCase)
    (results : Results) (w : World σ) (e : Str) (h : caseFault b tc w = some e) :
    faultEntry tc e ∈ (runCases b [tc] results w).1.details := by
  unfold caseFault at h
  rw [runCases]
  rcases hx : executeTestCase b tc w with ⟨e1 | detail, w1⟩
  · rw [hx] at h
    simp only [Option.some.injEq] at h
    subst h
    simp [runCases, recordFault, faultEntry]
  · rw [hx] at h
    simp only at h ⊢
    rcases hs : perform b (Call.screenshot (screenshotPath tc)) w1 with ⟨e2 | ok, w2⟩
    · rw [hs] at h
      simp only [Option.some.injEq] at h
      subst h
      simp [runCases, recordFault, faultEntry]
    · rw [hs] at h
      cases h

/-- C14 (amended): when the login succeeds and the final close resolves,
runTests returns the results of the loop; every test case has a detail, in
the order of the test cases; and when processing a test case faults, the
entry of the catch block for it is in the details and the loop goes on with
the test cases after it. -/
theorem runTests_isolates_case_faults {σ : Type} (b : Browser σ) (config : Config)
    (cases : List TestCase) (w w1 w2 w3 : World σ) (x y z : Bool)
    (hlaunch : perform b Call.launch w = (Except.ok x, w1))
    (hpage : perform b Call.newPage w1 = (Except.ok y, w2))
    (hlogin : performAll b (loginCalls config) w2 = (none, w3))
    (hclose : (perform b Call.close (runCases b cases (freshResults cases) w3).2).1 =
      Except.ok z) :
    (runTests b config cases w).1 = Except.ok (runCases b cases (freshResults cases) w3).1 ∧
    (cases.map (fun tc => tc.id)).Sublist
      ((runCases b cases (freshResults cases) w3).1.details.map (fun d => d.testCaseId)) ∧
    ∀ pre tc post e, cases = pre ++ tc :: post →
      caseFault b tc (runCases b pre (freshResults cases) w3).2 = some e →
      faultEntry tc e ∈ (runCases b cases (freshResults cases) w3).1.details ∧
      runCases b cases (freshResults cases) w3 =
        runCases b post (runCases b (pre ++ [tc]) (freshResults cases) w3).1
          (runCases b (pre ++ [tc]) (freshResults cases) w3).2 := by
  refine ⟨?_, ?_, ?_⟩
  · rw [runTests, hlaunch]
    simp only [hpage, hlogin]
    change (match runCases b cases (freshResults cases) w3 with
      | (final, w4) =>
        match perform b Call.close w4 with
        | (Except.error e', w5) => (Except.error e', w5)
        | (Except.ok _, w5) => (Except.ok final, w5)).1 = _
    rcases hr : runCases b cases (freshResults cases) w3 with ⟨final, w4⟩
    rw [hr] at hclose
    simp only at hclose ⊢
    rcases hc : perform b Call.close w4 with ⟨e | ok, w5⟩
    · rw [hc] at hclose
      cases hclose
    · rfl
  · obtain ⟨extra, h1, h2⟩ := runCases_details b cases (freshResults cases) w3
    rw [h1]
    simpa [freshResults] using h2
  · intro pre tc post e hcases hfault
    have hsplit : cases = (pre ++ [tc]) ++ post := by simp [hcases]
    have key := fun R => runCases_append b (pre ++ [tc]) post R w3
    rw [← hsplit] at key
    constructor
    · have hstep := faultEntry_mem_of_caseFault b tc (runCases b pre (freshResults cases) w3).1
        (runCases b pre (freshResults cases) w3).2 e hfault
      rw [key, runCases_append]
      exact mem_details_runCases b post _ _ _ hstep
    · exact key _

/-- An instance that holds an adapter holds one after any call of switchAI. -/
theorem switchAI_keeps_adapter {σ V C : Type} (factory : Str → C → Except Str (Adapter σ V))
    (this : AutoTestService σ V) (provider : Str) (config : C)
    (h : this.aiService.isSome = true) :
    (switchAI factory this provider config).2.aiService.isSome = true := by
  unfold switchAI
  cases factory provider config with
  | error e => exact h
  | ok a => rfl

/-- An instance that holds an adapter holds one after any calls of
switchAI. -/
theorem applySwitches_keeps_adapter {σ V C : Type}
    (factory : Str → C → Except Str (Adapter σ V)) (this : AutoTestService σ V)
    (calls : List (Str × C)) (h : this.aiService.isSome = true) :
    (applySwitches factory this calls).aiService.isSome = true := by
  induction calls generalizing this with
  | nil => exact h
  | cons c rest ih =>
    obtain ⟨p, cfg⟩ := c
    rw [applySwitches]
    exact ih _ (switchAI_keeps_adapter factory this p cfg h)

/-- Without a call of switchAI during the run, the run is runAutoTest. -/
theorem runAutoTestDuring_nil {σ V C : Type} (factory : Str → C → Except Str (Adapter σ V))
    (this : AutoTestService σ V) (now : Str) (testConfig : V) (prompts : Prompts V) (w : σ) :
    (runAutoTestDuring factory this now testConfig prompts w [] []).1 =
      runAutoTest this now testConfig prompts w := by
  unfold runAutoTestDuring runAutoTest
  cases h : this.aiService with
  | none => rfl
  | some a0 =>
    simp only [applySwitches, h]
    rcases invoke Capability.analyze (a0.analyze testConfig prompts.analysis) ⟨w, []⟩
      with ⟨e | analysis, st1⟩
    · rfl
    · simp only
      rcases invoke Capability.generateTestCases
        (a0.generateTestCases analysis prompts.testCase) st1 with ⟨e | testCases, st2⟩
      · rfl
      · simp only
        rcases invoke Capability.generateReport
          (a0.generateReport testCases prompts.report) st2 with ⟨e | report, st3⟩
        · rfl
        · rfl

/-- C16 (amended): in a run during which switchAI is called on the instance,
each stage invokes the adapter the instance holds when the stage starts:
analyze the adapter of the start, generateTestCases the adapter held after
the switches made while analyze was awaited, generateReport the adapter held
after the switches made while generateTestCases was awaited; the provider of
the result is the provider of the start. -/
theorem runAutoTestDuring_uses_held_adapter {σ V C : Type}
    (factory : Str → C → Except Str (Adapter σ V)) (this : AutoTestService σ V)
    (a0 : Adapter σ V) (hinit : this.aiService = some a0) (now : Str) (testConfig : V)
    (prompts : Prompts V) (w : σ) (during1 during2 : List (Str × C)) :
    (runAutoTestDuring factory this now testConfig prompts w during1 during2).1 =
      runAutoTest
        { aiProvider := this.aiProvider
          aiService := some
            { analyze := a0.analyze
              generateTestCases :=
                (adapterOr (applySwitches factory this during1) a0).generateTestCases
              generateReport :=
                (adapterOr (applySwitches factory (applySwitches factory this during1) during2)
                  a0).generateReport } }
        now testConfig prompts w := by
  have h1 := applySwitches_keeps_adapter factory this during1 (by rw [hinit]; rfl)
  have h2 := applySwitches_keeps_adapter factory (applySwitches factory this during1) during2 h1
  cases hs1 : (applySwitches factory this during1).aiService with
  | none => rw [hs1] at h1; cases h1
  | some a1 =>
    cases hs2 : (applySwitches factory (applySwitches factory this during1) during2).aiService with
    | none => rw [hs2] at h2; cases h2
    | some a2 =>
      unfold runAutoTestDuring runAutoTest
      simp only [hinit, hs1, hs2, adapterOr]
      rcases invoke Capability.analyze (a0.analyze testConfig prompts.analysis) ⟨w, []⟩
        with ⟨e | analysis, st1⟩
      · rfl
      · simp only
        rcases invoke Capability.generateTestCases
          (a1.generateTestCases analysis prompts.testCase) st1 with ⟨e | testCases, st2⟩
        · rfl
        · simp only
          rcases invoke Capability.generateReport
            (a2.generateReport testCases prompts.report) st2 with ⟨e | report, st3⟩
          · rfl
          · rfl

/-- A replacement string without the dollar sign stands for itself. -/
theorem expandReplacement_of_no_dollar (before whole after : Str) :
    ∀ v : Str, '$' ∉ v → expandReplacement before whole after v = v
  | [], _ => rfl
  | [_], _ => rfl
  | c :: d :: rest, h => by
    have hc : c ≠ '$' := fun e => h (e ▸ List.mem_cons_self _ _)
    have hrest : '$' ∉ d :: rest := fun e => h (List.mem_cons_of_mem _ e)
    rw [expandReplacement, if_neg hc,
      expandReplacement_of_no_dollar before whole after (d :: rest) hrest]

/-- Matching a literal text alone. -/
theorem matchItems_literal (p s : Str) :
    matchItems (p.map Item.lit) s =
      if startsWith p s then some ([], s.drop p.length) else none := by
  have h := matchItems_lits p [] s
  simpa [matchItems] using h

/-- The length of what a literal match consumes. -/
theorem length_sub_drop_of_startsWith (p s : Str) (h : startsWith p s = true) :
    s.length - (s.drop p.length).length = p.length := by
  obtain ⟨r, hr⟩ := (startsWith_iff p s).1 h
  subst hr
  simp

/-- Replacing the matches of a literal expression by a replacement string
without the dollar sign is substituting the literal text. -/
theorem replaceAllFrom_literal (pat rep : Str) (hrep : '$' ∉ rep) (n : Nat) (passed s : Str) :
    replaceAllFrom (pat.map Item.lit) rep n passed s = substituteFrom pat rep n s := by
  induction s generalizing n passed with
  | nil => cases n <;> rfl
  | cons c cs ih =>
    cases n with
    | succ n =>
      rw [replaceAllFrom, substituteFrom]
      exact ih n (c :: passed)
    | zero =>
      rw [replaceAllFrom, substituteFrom, matchItems_literal]
      by_cases hs : startsWith pat (c :: cs) = true
      · rw [if_pos hs, if_pos hs]
        simp only
        rw [expandReplacement_of_no_dollar _ _ _ rep hrep, ih,
          length_sub_drop_of_startsWith pat (c :: cs) hs]
      · rw [if_neg hs, if_neg hs]
        simp only
        rw [ih]

/-- The expression of a key without metacharacters that does not read as a
quantifier matches the placeholder literally. -/
theorem keyRegExp_of_plain (key : Str) (hplain : plainKey key = true)
    (hquant : bracedQuantifier key = false) :
    keyRegExp key = KeyRegExp.items ((placeholder key).map Item.lit) := by
  simp [keyRegExp, hplain, hquant]

/-- C11 (amended): for keys without metacharacters that do not read as a
quantifier and values without the dollar sign, fillTemplate returns a text:
the template in which the entries have been substituted one after the other,
in the order of the mapping, each entry replacing every occurrence of its
placeholder in the text so far by exactly its value and keeping every other
character. -/
theorem fillTemplate_substitutes_in_order (template : Str) (vars : List (Str × Str))
    (hkeys : ∀ kv ∈ vars, plainKey kv.1 = true ∧ bracedQuantifier kv.1 = false)
    (hvalues : ∀ kv ∈ vars, '$' ∉ kv.2) :
    fillTemplate template vars =
      Filled.text
        (vars.foldl (fun text kv => substitute (placeholder kv.1) kv.2 text) template) := by
  unfold fillTemplate
  induction vars generalizing template with
  | nil => rfl
  | cons kv rest ih =>
    obtain ⟨key, value⟩ := kv
    have hk := hkeys (key, value) (List.mem_cons_self _ _)
    have hv := hvalues (key, value) (List.mem_cons_self _ _)
    rw [fillFrom, keyRegExp_of_plain key hk.1 hk.2]
    simp only [List.foldl_cons]
    rw [ih _ (fun kv h => hkeys kv (List.mem_cons_of_mem _ h))
      (fun kv h => hvalues kv (List.mem_cons_of_mem _ h))]
    rw [replaceAll, replaceAllFrom_literal _ _ hv, substitute]

/-- A text in which the fixed text does not occur is left as it is. -/
theorem substitute_of_no_occurrence (pat rep s : Str)
    (h : ∀ k, startsWith pat (s.drop k) = false) : substitute pat rep s = s := by
  unfold substitute
  induction s with
  | nil => rfl
  | cons c cs ih =>
    have h0 := h 0
    simp only [List.drop_zero] at h0
    rw [substituteFrom, h0]
    simp only [Bool.false_eq_true, if_false, List.cons.injEq, true_and]
    exact ih (fun k => by simpa using h (k + 1))

section Evaluation

set_option maxRecDepth 100000

/-- C2 (code defect): the scripts synthesized for TC1 and for TC2 are each
balanced, and the text mergeScripts returns for them is not: the code of an
extracted record stops at the closing of the screenshot call, so the
declaration of TC2 is never closed. -/
theorem mergeScripts_generated_unbalanced :
    balanced scriptOpen = true ∧ balanced scriptSearch = true ∧
    (extractTests scriptSearch).map (fun t => t.code) =
      ["test('TC2 - search', async (\x7b page \x7d) => \x7b\n    await page.fill('#q', 'abc');\n\n    // 验证结果\n    await expect(page.locator('body')).toContainText('abc');\n\n    // 截图\n    await page.screenshot(\x7b\n      path: 'screenshots/TC2.png',\n      fullPage: true\n    \x7d);".toList] ∧
    (mergeScripts [("a.spec.js".toList, Entry.file scriptOpen)] "a.spec.js".toList
        scriptSearch).map balanced = Except.ok false := by
  decide

/-- C4 (code defect): the id extractTests recovers from the block synthesized
for TC1 is the whole title, id and name, so two test cases with the id TC1
and different names are merged into two records. -/
theorem merge_key_is_title :
    (extractTests scriptOpen).map (fun t => t.id) = ["TC1 - open".toList] ∧
    (deduplicateTests (extractTests scriptOpen ++ extractTests scriptReopen)).map
        (fun t => t.id) = ["TC1 - open".toList, "TC1 - reopen".toList] := by
  decide

/-- Witness of C3: existing [A, B] and new [B', C] give [A, B, C], with the
existing body of B. -/
theorem deduplicateTests_existing_first_witness :
    ([recA, recB].map (fun t => t.id)).Nodup ∧
    (deduplicateTests ([recA, recB] ++ [recB2, recC]) = specMerge [recA, recB] [recB2, recC] ∧
     ((deduplicateTests ([recA, recB] ++ [recB2, recC])).map (fun t => t.id)).Nodup ∧
     ∀ t ∈ deduplicateTests ([recA, recB] ++ [recB2, recC]),
       t.id ∈ [recA, recB].map (fun e => e.id) → t ∈ [recA, recB]) ∧
    specMerge [recA, recB] [recB2, recC] = [recA, recB, recC] :=
  ⟨by decide, deduplicateTests_existing_first [recA, recB] [recB2, recC] (by decide), by decide⟩

/-- C5 (counterexample): the existing text `emptySuite` is not empty and has
no test record, yet mergeScripts returns a merged text instead of failing, and
saveScript replaces the content of the existing file by it. -/
theorem mergeScripts_no_merge_error :
    emptySuite ≠ [] ∧ extractTests emptySuite = [] ∧
    mergeScripts [("a.spec.js".toList, Entry.file emptySuite)] "a.spec.js".toList oneTestSuite =
      Except.ok
        "test.describe('合并的测试', () => \x7b\n\n  test('TC9 - new', async () => \x7b\n  \x7d);\n\n\n  // no tests yet\n\x7d);\n".toList ∧
    saveScript (Target.directory [("a.spec.js".toList, Entry.file emptySuite)]) oneTestSuite "t".toList =
      Except.ok ("a.spec.js".toList,
        [("a.spec.js".toList, Entry.file
          "test.describe('合并的测试', () => \x7b\n\n  test('TC9 - new', async () => \x7b\n  \x7d);\n\n\n  // no tests yet\n\x7d);\n".toList)]) := by
  decide

/-- Witness of C5 (amended), at the existing text `emptySuite` and the new
script `oneTestSuite`. -/
theorem mergeScripts_without_records_succeeds_witness :
    findSimilarScripts (Target.directory [("a.spec.js".toList, Entry.file emptySuite)]) =
      "a.spec.js".toList :: [] ∧
    readFile [("a.spec.js".toList, Entry.file emptySuite)] "a.spec.js".toList =
      Except.ok emptySuite ∧
    emptySuite ≠ [] ∧ extractTests emptySuite = [] ∧
    (mergeScripts [("a.spec.js".toList, Entry.file emptySuite)] "a.spec.js".toList oneTestSuite =
      Except.ok (replaceFirst describeRegex
        (mergedHeader ++
          joinWith "\n\n  ".toList
            ((deduplicateTests (extractTests oneTestSuite)).map (fun t => t.code)) ++
          "\n\n".toList) emptySuite) ∧
     saveScript (Target.directory [("a.spec.js".toList, Entry.file emptySuite)]) oneTestSuite "t".toList =
      Except.ok ("a.spec.js".toList,
        writeFile [("a.spec.js".toList, Entry.file emptySuite)] "a.spec.js".toList
          (replaceFirst describeRegex
            (mergedHeader ++
              joinWith "\n\n  ".toList
                ((deduplicateTests (extractTests oneTestSuite)).map (fun t => t.code)) ++
              "\n\n".toList) emptySuite))) :=
  ⟨by decide, by decide, by decide, by decide,
    mergeScripts_without_records_succeeds [("a.spec.js".toList, Entry.file emptySuite)]
      "a.spec.js".toList emptySuite oneTestSuite "t".toList [] (by decide) (by decide)
      (by decide) (by decide)⟩

/-- C6 (code defect): against an existing file whose text is empty,
mergeScripts returns the empty text for the script synthesized for TC2, so
the merged text holds no record although the new script holds one; saveScript
leaves the file empty. -/
theorem mergeScripts_empty_existing_drops_new :
    mergeScripts [("a.spec.js".toList, Entry.file [])] "a.spec.js".toList scriptSearch =
      Except.ok [] ∧
    extractTests ([] : Str) = [] ∧
    (extractTests scriptSearch).map (fun t => t.id) = ["TC2 - search".toList] ∧
    saveScript (Target.directory [("a.spec.js".toList, Entry.file [])]) scriptSearch "t".toList =
      Except.ok ("a.spec.js".toList, [("a.spec.js".toList, Entry.file [])]) := by
  decide

/-- C7 (counterexample): for a test case whose second step has the action
tag hover, generate returns a script; the step is rendered as an empty
instruction after the click instruction. -/
theorem generate_unknown_step_returns_script :
    generate "2024/1/3 10:00:00".toList "2024-01-03T02:00:00.000Z".toList sampleConfig
        [caseHover] =
      "// 自动生成的测试脚本\n// 页面: Orders\n// 生成时间: 2024/1/3 10:00:00\n// 配置: \x7b\n  \"url\": \"http://app.test/\",\n  \"username\": \"tester\",\n  \"tabName\": \"Orders\",\n  \"testData\": \"\"\n\x7d\n\nconst \x7b test, expect \x7d = require('@playwright/test');\n\ntest.describe('Orders 自动化测试', () => \x7b\n\n  test.beforeEach(async (\x7b page \x7d) => \x7b\n    // 登录\n    await page.goto('http://app.test/');\n    await page.fill('input[type=\"text\"]', 'tester');\n    \n    await page.click('button:has-text(\"登\")');\n    await page.waitForURL(/.*#\\/.*/);\n\n    // 进入目标页面\n    await page.click('a:has-text(\"Orders\")');\n    await page.waitForTimeout(1000);\n  \x7d);\n\n\n  test('TC3 - hover', async (\x7b page \x7d) => \x7b\n    await page.click('#menu');\n    \n\n    // 验证结果\n    await expect(page.locator('body')).toContainText('Menu');\n\n    // 截图\n    await page.screenshot(\x7b\n      path: 'screenshots/TC3.png',\n      fullPage: true\n    \x7d);\n  \x7d);\n\n\x7d);\n\n// 测试配置\nmodule.exports = \x7b\n  testConfig: \x7b\n  \"url\": \"http://app.test/\",\n  \"username\": \"tester\",\n  \"tabName\": \"Orders\",\n  \"testData\": \"\"\n\x7d,\n  generatedAt: '2024-01-03T02:00:00.000Z'\n\x7d;\n".toList := by
  decide

/-- Witness of C7 (amended), at the test case `caseHover`. -/
theorem generate_renders_unknown_step_empty_witness :
    generateSteps caseHover.steps = "await page.click('#menu');\n    ".toList ∧
    renderTestCase caseHover <:+:
      generate "2024/1/3 10:00:00".toList "2024-01-03T02:00:00.000Z".toList sampleConfig
        [caseHover] :=
  ⟨(generate_renders_unknown_step_empty "2024/1/3 10:00:00".toList
      "2024-01-03T02:00:00.000Z".toList sampleConfig [caseHover] caseHover
      [{ action := "click".toList, selector := some "#menu".toList }] []
      { action := "hover".toList, selector := some "#item".toList }
      (by decide) (by decide) (by decide)).2.1.trans (by decide),
   (generate_renders_unknown_step_empty "2024/1/3 10:00:00".toList
      "2024-01-03T02:00:00.000Z".toList sampleConfig [caseHover] caseHover
      [{ action := "click".toList, selector := some "#menu".toList }] []
      { action := "hover".toList, selector := some "#item".toList }
      (by decide) (by decide) (by decide)).2.2⟩

/-- Witness of C8: with an adapter whose generateTestCases rejects, the result
holds the analysis and its step, the error message, and neither testCases nor
report; generateReport is not invoked. -/
theorem runAutoTest_returns_partial_result_witness :
    runAutoTest sampleService "2024-01-01T02:00:00.000Z".toList "config".toList samplePrompts 0 =
      (Except.ok
        { provider := "deepseek".toList, timestamp := "2024-01-01T02:00:00.000Z".toList,
          steps := ["页面分析完成".toList], analysis := some "analysis".toList,
          testCases := none, report := none, error := some "quota exceeded".toList },
       ⟨2, [Capability.analyze, Capability.generateTestCases]⟩) :=
  (runAutoTest_returns_partial_result sampleService failingAdapter rfl
    "2024-01-01T02:00:00.000Z".toList "config".toList samplePrompts 0).2.2.1
    "analysis".toList 1 "quota exceeded".toList 2 rfl rfl

/-- C9 (counterexample): decoding the text `not structured` gives the object
with the error text of the code, which is not `decode failed`; and for a
response that is a JSON string of six backticks the fenced block has the empty
content, which is not valid, yet parseJSON returns the value of the whole
response. -/
theorem parseJSON_sentinel_is_not_decode_failed :
    parseJSON jsonParse "not structured".toList =
      Decoded.failure "JSON解析失败".toList "not structured".toList ∧
    parseJSON jsonParse "not structured".toList ≠
      Decoded.failure "decode failed".toList "not structured".toList ∧
    fencedBlock "\"``````\"".toList = some [] ∧ jsonParse [] = none ∧
    parseJSON jsonParse "\"``````\"".toList = Decoded.value (Json.str "``````".toList) :=
  ⟨rfl, fun h => by injection h with h1 _; exact absurd h1 (by decide), by decide, rfl, rfl⟩

/-- Witness of C9 (amended), at the response `not structured`. -/
theorem parseJSON_failure_returns_sentinel_witness :
    fencedBlock "not structured".toList = none ∧
    jsonParse "not structured".toList = none ∧
    parseJSON jsonParse "not structured".toList =
      Decoded.failure "JSON解析失败".toList "not structured".toList :=
  ⟨by decide, rfl,
    (parseJSON_failure_returns_sentinel jsonParse "not structured".toList).2.2.2
      (by decide) rfl⟩

/-- C10 (counterexample): a response with two plain fenced blocks, the first
around `foo` and the second around an object with the member a = 1.  The
response contains a fenced block whose trimmed content is valid, and
parseJSON returns the failure sentinel: only the first block is looked at. -/
theorem parseJSON_ignores_later_fenced_block :
    "```\nfoo\n```\n```\n\x7b\"a\":1\x7d\n```".toList =
      "```\nfoo\n```\n".toList ++ fence ++ "\n\x7b\"a\":1\x7d\n".toList ++ fence ∧
    closeFence "\n\x7b\"a\":1\x7d\n".toList = none ∧
    trimSpace "\n\x7b\"a\":1\x7d\n".toList = "\x7b\"a\":1\x7d".toList ∧
    jsonParse "\x7b\"a\":1\x7d".toList = some (Json.obj [("a".toList, Json.num "1".toList)]) ∧
    fencedBlock "```\nfoo\n```\n```\n\x7b\"a\":1\x7d\n```".toList = some "foo".toList ∧
    jsonParse "foo".toList = none ∧
    parseJSON jsonParse "```\nfoo\n```\n```\n\x7b\"a\":1\x7d\n```".toList =
      Decoded.failure "JSON解析失败".toList "```\nfoo\n```\n```\n\x7b\"a\":1\x7d\n```".toList :=
  ⟨by decide, by decide, by decide, rfl, by decide, rfl, rfl⟩

/-- Witness of C10 (amended): the response of the specification, a plain fence
around an object with the member a = 1, decodes to that object. -/
theorem parseJSON_decodes_fenced_or_whole_witness :
    jsonParse [] = none ∧
    fencedBlock "```\n\x7b\"a\":1\x7d\n```".toList = some "\x7b\"a\":1\x7d".toList ∧
    jsonParse "\x7b\"a\":1\x7d".toList = some (Json.obj [("a".toList, Json.num "1".toList)]) ∧
    parseJSON jsonParse "```\n\x7b\"a\":1\x7d\n```".toList =
      Decoded.value (Json.obj [("a".toList, Json.num "1".toList)]) :=
  ⟨rfl, by decide, rfl,
    (parseJSON_decodes_fenced_or_whole jsonParse rfl "```\n\x7b\"a\":1\x7d\n```".toList
      (Json.obj [("a".toList, Json.num "1".toList)])).1 "\x7b\"a\":1\x7d".toList
      (by decide) rfl⟩

/-- C13 (counterexample): two calls of generate with the same configuration
and test cases, made at different times, return different texts. -/
theorem generate_differs_with_clock :
    generate "2024/1/1 10:00:00".toList "2024-01-01T02:00:00.000Z".toList sampleConfig
        [caseOpen] ≠
      generate "2024/1/2 10:00:00".toList "2024-01-02T02:00:00.000Z".toList sampleConfig
        [caseOpen] := by
  decide

/-- C15 (code defect): when launching resolves and opening the page rejects,
runTests raises the error of newPage and the trace holds the launch and the
newPage call only: the session is never closed. -/
theorem runTests_newPage_fault_never_closes :
    (runTests newPageFaults sampleConfig [caseLook] ⟨(), []⟩).1 =
      Except.error "no page".toList ∧
    (runTests newPageFaults sampleConfig [caseLook] ⟨(), []⟩).2.trace =
      [Call.launch, Call.newPage] ∧
    closeCount (runTests newPageFaults sampleConfig [caseLook] ⟨(), []⟩).2.trace = 0 := by
  decide

/-- C17 (code defect): from the script synthesized for TC1, extractTests
returns one record whose code ends at the closing of the screenshot call; the
declaration rendered for TC1 is that code followed by its own closing, which
the record lacks, and the code of the record is not balanced. -/
theorem extractTests_truncates_declaration :
    extractTests scriptOpen =
      [{ id := "TC1 - open".toList
         code := "test('TC1 - open', async (\x7b page \x7d) => \x7b\n    await page.click('#open');\n\n    // 验证结果\n    await expect(page.locator('body')).toContainText('Orders');\n\n    // 截图\n    await page.screenshot(\x7b\n      path: 'screenshots/TC1.png',\n      fullPage: true\n    \x7d);".toList }] ∧
    renderTestCase caseOpen =
      "\n  ".toList ++
      "test('TC1 - open', async (\x7b page \x7d) => \x7b\n    await page.click('#open');\n\n    // 验证结果\n    await expect(page.locator('body')).toContainText('Orders');\n\n    // 截图\n    await page.screenshot(\x7b\n      path: 'screenshots/TC1.png',\n      fullPage: true\n    \x7d);".toList ++
      "\n  \x7d);".toList ∧
    (extractTests scriptOpen).map (fun t => balanced t.code) = [false] := by
  decide

/-- C12 (counterexample): with an SDK whose OpenAI client constructor raises
when no API key is given, create fails for the supported provider `openai` on
a configuration without key, and not with the unsupported-provider error. -/
theorem create_fails_for_supported_provider :
    asciiLower "openai".toList ∈ supportedIds ∧
    create strictSdk asciiLower "openai".toList { } =
      Except.error (CreateError.sdk "Missing credentials".toList) := by
  decide

/-- Witness of C12 (amended): the provider `DeepSeek` gives the DeepSeek
adapter with the defaults of its class, the provider `OpenAI` with a key the
OpenAI adapter with its client, and the provider `llama` the
unsupported-provider error. -/
theorem create_dispatches_on_provider_witness :
    asciiLower "DeepSeek".toList = "deepseek".toList ∧
    create strictSdk asciiLower "DeepSeek".toList { apiKey := some "k".toList } =
      Except.ok
        { vendor := Vendor.deepseek, config := { apiKey := some "k".toList }
          apiKey := some "k".toList, baseURL := some "https://api.deepseek.com/v1".toList
          model := "deepseek-chat".toList, client := Client.none } ∧
    asciiLower "OpenAI".toList = "openai".toList ∧
    create strictSdk asciiLower "OpenAI".toList { apiKey := some "k".toList } =
      Except.ok
        { vendor := Vendor.openai, config := { apiKey := some "k".toList }
          apiKey := some "k".toList, baseURL := none
          model := "gpt-4-turbo".toList
          client := Client.openai (some "k".toList) "https://api.openai.com/v1".toList } ∧
    asciiLower "llama".toList ∉ supportedIds ∧
    create strictSdk asciiLower "llama".toList { apiKey := some "k".toList } =
      Except.error (CreateError.unsupportedProvider "不支持的AI提供商: llama".toList) :=
  ⟨by decide,
   ((create_dispatches_on_provider strictSdk asciiLower "DeepSeek".toList
      { apiKey := some "k".toList }).2.2.1 (by decide)).trans (by decide),
   by decide,
   ((create_dispatches_on_provider strictSdk asciiLower "OpenAI".toList
      { apiKey := some "k".toList }).2.2.2.2.2.2.2.1 (by decide)).trans (by decide),
   by decide,
   ((create_dispatches_on_provider strictSdk asciiLower "llama".toList
      { apiKey := some "k".toList }).2.1 (by decide)).trans (by decide)⟩

/-- C14 (counterexample): the login succeeds, the click of TC1 rejects and the
final close rejects; runTests raises the error of close instead of returning
a result. -/
theorem runTests_raises_when_close_faults :
    performAll clickAndCloseFault (loginCalls sampleConfig)
        ⟨(), [Call.launch, Call.newPage]⟩ =
      (none, ⟨(), [Call.launch, Call.newPage] ++ loginCalls sampleConfig⟩) ∧
    caseFault clickAndCloseFault caseOpen
        ⟨(), [Call.launch, Call.newPage] ++ loginCalls sampleConfig⟩ =
      some "no element".toList ∧
    (runTests clickAndCloseFault sampleConfig [caseOpen, caseLook] ⟨(), []⟩).1 =
      Except.error "close failed".toList :=
  ⟨rfl, by decide, by decide⟩

/-- Witness of C14 (amended): the click of TC1 rejects; runTests returns the
results with the entry of the catch block for TC1 followed by the detail of
TC4, which is executed after it. -/
theorem runTests_isolates_case_faults_witness :
    (runTests clickFaults sampleConfig [caseOpen, caseLook] ⟨(), []⟩).1 =
      Except.ok
        { total := 2
          passed := 1
          failed := 1
          details :=
            [{ testCaseId := "TC1".toList, passed := false, error := some "no element".toList },
             { testCaseId := "TC4".toList, passed := true, actualResult := some "Orders".toList }]
          screenshots := [("TC4".toList, "outputs/screenshots/TC4.png".toList)] } ∧
    faultEntry caseOpen "no element".toList ∈
      (runCases clickFaults [caseOpen, caseLook] (freshResults [caseOpen, caseLook])
        ⟨(), [Call.launch, Call.newPage] ++ loginCalls sampleConfig⟩).1.details :=
  ⟨(runTests_isolates_case_faults clickFaults sampleConfig [caseOpen, caseLook] ⟨(), []⟩
      ⟨(), [Call.launch]⟩ ⟨(), [Call.launch, Call.newPage]⟩
      ⟨(), [Call.launch, Call.newPage] ++ loginCalls sampleConfig⟩ true true true
      rfl rfl rfl (by decide)).1.trans (by decide),
   ((runTests_isolates_case_faults clickFaults sampleConfig [caseOpen, caseLook] ⟨(), []⟩
      ⟨(), [Call.launch]⟩ ⟨(), [Call.launch, Call.newPage]⟩
      ⟨(), [Call.launch, Call.newPage] ++ loginCalls sampleConfig⟩ true true true
      rfl rfl rfl (by decide)).2.2 [] caseOpen [caseLook] "no element".toList rfl
      (by decide)).1⟩

/-- C16 (counterexample): a run starts on an instance holding the adapter of
claude; while analyze is awaited, switchAI is called with deepseek.  The
result records the provider claude and the analysis of the claude adapter,
and its testCases and report come from the deepseek adapter. -/
theorem switchAI_changes_run_underway :
    (runAutoTestDuring taggedFactory claudeService "2024-01-01T02:00:00.000Z".toList
        "config".toList samplePrompts () [("deepseek".toList, ())] []).1.1 =
      Except.ok
        { provider := "claude".toList, timestamp := "2024-01-01T02:00:00.000Z".toList
          steps := ["页面分析完成".toList, "测试用例生成完成".toList, "测试报告生成完成".toList]
          analysis := some "claude analysis".toList
          testCases := some "deepseek cases".toList
          report := some "deepseek report".toList
          error := none } := by
  decide

/-- Witness of C16 (amended), at the run of the counterexample: the stages
after the switch invoke the deepseek adapter. -/
theorem runAutoTestDuring_uses_held_adapter_witness :
    (runAutoTestDuring taggedFactory claudeService "2024-01-01T02:00:00.000Z".toList
        "config".toList samplePrompts () [("deepseek".toList, ())] []).1.1 =
      (runAutoTest
        { aiProvider := "claude".toList
          aiService := some
            { analyze := (taggedAdapter "claude").analyze
              generateTestCases := (taggedAdapter "deepseek").generateTestCases
              generateReport := (taggedAdapter "deepseek").generateReport } }
        "2024-01-01T02:00:00.000Z".toList "config".toList samplePrompts ()).1 :=
  congrArg Prod.fst
    (runAutoTestDuring_uses_held_adapter taggedFactory claudeService (taggedAdapter "claude") rfl
      "2024-01-01T02:00:00.000Z".toList "config".toList samplePrompts ()
      [("deepseek".toList, ())] [])

/-- C11 (counterexample): the value inserted for the key a is scanned again
for the key b; a value with a dollar pattern is not inserted as it is; and the
key 1 makes fillTemplate raise a SyntaxError. -/
theorem fillTemplate_not_simultaneous :
    fillTemplate "\x7ba\x7d".toList [("a".toList, "\x7bb\x7d".toList), ("b".toList, "x".toList)] =
      Filled.text "x".toList ∧
    fillSimultaneous "\x7ba\x7d".toList
        [("a".toList, "\x7bb\x7d".toList), ("b".toList, "x".toList)] = "\x7bb\x7d".toList ∧
    fillTemplate "<\x7ba\x7d>".toList [("a".toList, "$&$&".toList)] =
      Filled.text "<\x7ba\x7d\x7ba\x7d>".toList ∧
    fillSimultaneous "<\x7ba\x7d>".toList [("a".toList, "$&$&".toList)] = "<$&$&>".toList ∧
    fillTemplate "x\x7b1\x7d".toList [("1".toList, "v".toList)] =
      Filled.syntaxError "\x7b1\x7d".toList := by
  decide

/-- Witness of C11 (amended): two keys are substituted and the placeholder of
a key that is not in the mapping is left as it is. -/
theorem fillTemplate_substitutes_in_order_witness :
    fillTemplate "Hello \x7bname\x7d, see \x7burl\x7d and \x7bmissing\x7d!".toList
        [("name".toList, "Ann".toList), ("url".toList, "http://x".toList)] =
      Filled.text "Hello Ann, see http://x and \x7bmissing\x7d!".toList :=
  (fillTemplate_substitutes_in_order
    "Hello \x7bname\x7d, see \x7burl\x7d and \x7bmissing\x7d!".toList
    [("name".toList, "Ann".toList), ("url".toList, "http://x".toList)]
    (by decide) (by decide)).trans (by decide)

end Evaluation

end AutoUITest
